import Mathlib

set_option maxRecDepth 10000

/-!
# Verification of the three-in-a-row grid/match/cascade engine

Shallow embedding of the match-3 engine in `src/game.js`: the grid data
model, the match scanners (`hasMatches`, `findMatches`), the
remove/drop/refill cycle, the cascade driver, the combo and power-up
logic, and the move controller (`swapGems`).

Modelling conventions:
* Machine numbers are `Nat` (or `Int` where the source can go negative,
  e.g. the move counter and the indices handed to `getGem`).  The only
  fractional computation in scope, `Math.floor(baseScore * multiplier)`
  with `multiplier = 1 + (comboCount - 1) * 0.5`, is exact in binary
  floating point for the values that occur, and is modelled as
  `baseScore * (comboCount + 1) / 2` over `Nat` (floor division).
* `Math.random()`-driven choices are modelled by an injected stream
  `rng : Nat → Nat` consumed at an explicit index, mirroring
  `getRandomGemType` (`Math.floor(Math.random() * 4)` becomes
  `rng idx % numGemColors`).
* The JS `do..while` colour-rejection loop in `initialize` and the
  unbounded `while` loop in `processCascade` are given explicit fuel and
  return `Option` (`none` = the JS loop has not terminated within the
  fuel).
* Gems are JS objects mutated in place; the grid cells alias them.  The
  model stores gem records in the grid, which is equivalent as long as
  no two cells alias one object — true on the code paths modelled here.
  Purely visual fields (`x`, `y`, `alpha`, `scale`) and real-time
  behaviour (animation promises, the combo-expiry `setTimeout`) are
  outside the model; the grid-state effect of the animated operations
  (`animateMatchCycle`, `animateDropGems`, `animateSpawnGems`,
  `animateCascade`) is identical to their instant counterparts
  (`processMatchCycle`, `dropGems`, `refillGrid`, `processCascade`),
  which is what is embedded.
-/

namespace ThreeInRow

/-- `POWERUP_TYPES` from game.js: `NONE: 'none'`, `BOMB: 'bomb'`,
`COLOR_CLEAR: 'color'`. -/
inductive PowerUpType where
  | none
  | bomb
  | colorClear
deriving DecidableEq, Repr

/-- A gem object (game.js `createGem`), restricted to the engine-relevant
fields: `type` (colour id in `[0, 4)`), `powerUpType`, and the stored
`row`/`col` position.  The fields `x`, `y`, `alpha`, `scale` are purely
visual and omitted. -/
structure Gem where
  type : Nat
  powerUpType : PowerUpType
  row : Nat
  col : Nat
deriving DecidableEq, Repr

/-- A grid cell: `null` or a gem. -/
abbrev Cell := Option Gem

/-- The grid: an array of row arrays, as in game.js. -/
abbrev Grid := List (List Cell)

/-- The `GridManager` state: `rows`, `cols` and the owned `grid`. -/
structure GridManager where
  rows : Nat
  cols : Nat
  grid : Grid
deriving DecidableEq, Repr

/-- `GEM_COLORS.length` — 4 colours. -/
def numGemColors : Nat := 4

/-- Read `grid[r][c]`; out-of-range JS indexing yields `undefined`,
which the scanners treat like `null`, so the model returns `none`. -/
def cellAt (g : Grid) (r c : Nat) : Cell :=
  (g.getD r []).getD c none

/-- The colour at `(r, c)`, when a gem is present. -/
def cellType (g : Grid) (r c : Nat) : Option Nat :=
  (cellAt g r c).map Gem.type

/-- Write `grid[r][c] := v` (no-op when out of range, as JS assignment
to a missing row would throw; the modelled code never does). -/
def setCell (g : Grid) (r c : Nat) (v : Cell) : Grid :=
  g.set r ((g.getD r []).set c v)

/-- game.js `grid[r][c] === null`: the slot exists and holds `null`
(an out-of-range read gives `undefined`, which is `!== null`). -/
def cellIsNull (g : Grid) (r c : Nat) : Bool :=
  match g.get? r with
  | some rowL => rowL.get? c == some (none : Cell)
  | none => false

/-- `GridManager.createGem(row, col, type, powerUpType = NONE)`. -/
def createGem (row col gemType : Nat)
    (powerUpType : PowerUpType := PowerUpType.none) : Gem :=
  { type := gemType, powerUpType := powerUpType, row := row, col := col }

/-- `GridManager.getGem(row, col)`: bounds-checked cell read returning
`null` outside `[0, rows) × [0, cols)`.  Indices are `Int` because JS
callers pass negative indices (e.g. the bomb's 3×3 sweep). -/
def getGem (gm : GridManager) (row col : Int) : Option Gem :=
  if 0 ≤ row ∧ row < (gm.rows : Int) ∧ 0 ≤ col ∧ col < (gm.cols : Int) then
    cellAt gm.grid row.toNat col.toNat
  else
    Option.none

/-- Well-formed grid: `rows` row arrays of length `cols` each (true of
every grid the game constructs). -/
def WF (gm : GridManager) : Prop :=
  gm.grid.length = gm.rows ∧ ∀ row ∈ gm.grid, row.length = gm.cols

/-- The data-model invariant of §3 of the spec: the `row`/`col` stored on
a gem equal its actual array position. -/
def coherent (g : Grid) : Prop :=
  ∀ r c gem, cellAt g r c = some gem → gem.row = r ∧ gem.col = c

/-! ## Match scanning -/

/-- The run-extension test of the scanners: two consecutive cells hold
gems of equal colour (`currentGem && prevGem && currentGem.type ===
prevGem.type`). -/
def sameType (a b : Cell) : Bool :=
  match a, b with
  | some g1, some g2 => g1.type == g2.type
  | _, _ => false

/-- Emit the current run if its length is ≥ 3, as the list of its gems
(run cells of length ≥ 2 are all non-null by construction). -/
def flushRun (run : List Cell) : List (List Gem) :=
  if 3 ≤ run.length then [run.filterMap id] else []

/-- The single-pass run-length scan of `findMatches`, one line at a
time.  `run` is the current run `cells[matchStart..col)`; a cell that
extends the run (`sameType current prev`) grows it, anything else
flushes it.  The virtual iteration at `col = cols` always flushes. -/
def runsGo : List Cell → List Cell → List (List Gem)
  | run, [] => flushRun run
  | run, c :: rest =>
    if sameType c (run.getD (run.length - 1) none) then
      runsGo (run ++ [c]) rest
    else
      flushRun run ++ runsGo [c] rest

/-- Scan one row (or one column) for runs of 3+ same-coloured gems;
initial state is `matchStart = 0, matchLength = 1`. -/
def scanLine (cells : List Cell) : List (List Gem) :=
  match cells with
  | [] => []
  | c :: rest => runsGo [c] rest

/-- Match direction tag. -/
inductive Direction where
  | horizontal
  | vertical
deriving DecidableEq, Repr

/-- One record of the `findMatches` result list: a matched gem, the
length of its run (`matchType`), and the direction. -/
structure MatchRec where
  gem : Gem
  matchType : Nat
  direction : Direction
deriving DecidableEq, Repr

/-- The horizontal records for one row. -/
def rowMatches (row : List Cell) : List MatchRec :=
  ((scanLine row).map fun run =>
    run.map fun g => ⟨g, run.length, Direction.horizontal⟩).flatten

/-- The column `c` of the grid as read by the vertical scan
(`grid[row] ? grid[row][col] : null` for `row` in `[0, rows)`). -/
def colCells (gm : GridManager) (c : Nat) : List Cell :=
  (List.range gm.rows).map fun r => cellAt gm.grid r c

/-- The vertical-scan dedup push: a gem already captured by an earlier
record (`matches.some(m => m.gem === gem)`) is skipped, others are
appended with the run's length and `vertical`. -/
def addVertical (acc : List MatchRec) (run : List Gem) : List MatchRec :=
  run.foldl (fun acc g =>
    if acc.any fun m => m.gem == g then acc
    else acc ++ [⟨g, run.length, Direction.vertical⟩]) acc

/-- `GridManager.findMatches()`: horizontal row scans first, then
vertical column scans with the duplicate check against all records
emitted so far. -/
def findMatches (gm : GridManager) : List MatchRec :=
  let horizontal :=
    ((List.range gm.rows).map fun r => rowMatches (gm.grid.getD r [])).flatten
  let verticalRuns :=
    ((List.range gm.cols).map fun c => scanLine (colCells gm c)).flatten
  verticalRuns.foldl addVertical horizontal

/-- `GridManager.hasMatches()`: the cheap boolean scan — some cell
starts a same-coloured triple to its right or below. -/
def hasMatches (gm : GridManager) : Bool :=
  (List.range gm.rows).any fun row =>
    (List.range gm.cols).any fun col =>
      match cellAt gm.grid row col with
      | Option.none => false
      | some gem =>
        (decide (col < gm.cols - 2) &&
          match cellAt gm.grid row (col + 1), cellAt gm.grid row (col + 2) with
          | some n1, some n2 => gem.type == n1.type && gem.type == n2.type
          | _, _ => false) ||
        (decide (row < gm.rows - 2) &&
          match cellAt gm.grid (row + 1) col, cellAt gm.grid (row + 2) col with
          | some n1, some n2 => gem.type == n1.type && gem.type == n2.type
          | _, _ => false)

/-- `GridManager.getMatchedGems()`: collapse `findMatches` to a list of
gems deduplicated by their `(row, col)` key, first occurrence kept. -/
def getMatchedGems (gm : GridManager) : List Gem :=
  ((findMatches gm).foldl
    (fun (p : List Gem × List (Nat × Nat)) m =>
      if p.2.contains (m.gem.row, m.gem.col) then p
      else (p.1 ++ [m.gem], p.2 ++ [(m.gem.row, m.gem.col)]))
    ([], [])).1

/-! ## Remove / drop / refill -/

/-- `GridManager.removeMatchedGems(matchedGems)`: null out each gem's
stored position (when that slot currently holds a gem), counting the
removals. -/
def removeMatchedGems (gm : GridManager) (matchedGems : List Gem) :
    GridManager × Nat :=
  matchedGems.foldl
    (fun (p : GridManager × Nat) gem =>
      if (cellAt p.1.grid gem.row gem.col).isSome then
        ({ p.1 with grid := setCell p.1.grid gem.row gem.col Option.none },
          p.2 + 1)
      else p)
    (gm, 0)

/-- The per-column loop body of `GridManager.dropGems()`: scan rows
bottom-up (`iter` iterations remain; the current row is `iter - 1`),
moving each gem down to `emptyRow` and updating its stored `row`. -/
def dropColLoop (col : Nat) :
    Nat → Grid → Nat → Nat → Grid × Nat × Nat
  | 0, g, emptyRow, dropped => (g, emptyRow, dropped)
  | iter + 1, g, emptyRow, dropped =>
    match cellAt g iter col with
    | some gem =>
      if iter ≠ emptyRow then
        dropColLoop col iter
          (setCell (setCell g emptyRow col (some { gem with row := emptyRow }))
            iter col Option.none)
          (emptyRow - 1) (dropped + 1)
      else
        dropColLoop col iter g (emptyRow - 1) dropped
    | Option.none => dropColLoop col iter g emptyRow dropped

/-- One column of the `dropGems` column loop, from the bottom row. -/
def dropColStep (rows : Nat) (p : Grid × Nat) (col : Nat) : Grid × Nat :=
  let q := dropColLoop col rows p.1 (rows - 1) p.2
  (q.1, q.2.2)

/-- `GridManager.dropGems()`: per column, compact gems toward the
highest row index; returns the count of gems that moved. -/
def dropGems (gm : GridManager) : GridManager × Nat :=
  let p := (List.range gm.cols).foldl (dropColStep gm.rows) (gm.grid, 0)
  ({ gm with grid := p.1 }, p.2)

/-- One cell of the `refillGrid` scan: fill a `null` cell with a fresh
random gem, threading spawn count and rng index. -/
def refillCell (rng : Nat → Nat) (row : Nat) (p : Grid × Nat × Nat)
    (col : Nat) : Grid × Nat × Nat :=
  match cellAt p.1 row col with
  | Option.none =>
    (setCell p.1 row col
        (some (createGem row col (rng p.2.2 % numGemColors))),
      p.2.1 + 1, p.2.2 + 1)
  | some _ => p

/-- `GridManager.refillGrid()` (grid effect shared with
`animateSpawnGems`): fill every `null` cell with a fresh random gem,
threading the rng index; returns the spawn count and the next index. -/
def refillGrid (gm : GridManager) (rng : Nat → Nat) (idx : Nat) :
    GridManager × Nat × Nat :=
  let p := (List.range gm.rows).foldl
    (fun (p : Grid × Nat × Nat) row =>
      (List.range gm.cols).foldl (refillCell rng row) p)
    (gm.grid, 0, idx)
  ({ gm with grid := p.1 }, p.2.1, p.2.2)

/-- The result record of `processMatchCycle`. -/
structure CycleResult where
  processed : Bool
  removed : Nat
  dropped : Nat
  spawned : Nat
  matchedGems : List Gem
deriving DecidableEq, Repr

/-- `GridManager.processMatchCycle()` (grid effect shared with
`animateMatchCycle`): one atomic find → remove → drop → refill round;
reports `processed = false` and changes nothing when there is no
match. -/
def processMatchCycle (gm : GridManager) (rng : Nat → Nat) (idx : Nat) :
    GridManager × CycleResult × Nat :=
  let ms := findMatches gm
  if ms.isEmpty then
    (gm, ⟨false, 0, 0, 0, []⟩, idx)
  else
    let matchedGems := getMatchedGems gm
    let r := removeMatchedGems gm matchedGems
    let d := dropGems r.1
    let s := refillGrid d.1 rng idx
    (s.1, ⟨true, r.2, d.2, s.2.1, matchedGems⟩, s.2.2)

/-- `GridManager.processCascade()` (grid effect shared with
`animateCascade`): repeat `processMatchCycle` until a cycle reports
`processed = false`, accumulating the total cleared count and the cycle
count.  The source loop has no cycle cap; `fuel` bounds the model, and
`none` means the JS loop has not finished within `fuel` cycles. -/
def processCascadeFuel (rng : Nat → Nat) :
    Nat → GridManager → Nat → Nat → Nat →
    Option (GridManager × Nat × Nat × Nat)
  | 0, _, _, _, _ => Option.none
  | fuel + 1, gm, idx, total, cycles =>
    let s := processMatchCycle gm rng idx
    if s.2.1.processed then
      processCascadeFuel rng fuel s.1 s.2.2 (total + s.2.1.removed)
        (cycles + 1)
    else
      some (s.1, total, cycles, s.2.2)

/-! ## Initial fill -/

/-- `GridManager.wouldCreateMatch(row, col, gemType)`: placing `gemType`
at `(row, col)` would complete a run of 3 with the two cells to its left
or the two cells above it. -/
def wouldCreateMatch (gm : GridManager) (row col gemType : Nat) : Bool :=
  (decide (2 ≤ col) &&
    (cellType gm.grid row (col - 1) == some gemType) &&
    (cellType gm.grid row (col - 2) == some gemType)) ||
  (decide (2 ≤ row) &&
    (cellType gm.grid (row - 1) col == some gemType) &&
    (cellType gm.grid (row - 2) col == some gemType))

/-- The `do { gemType = this.getRandomGemType() } while
(this.wouldCreateMatch(row, col, gemType))` loop of `initialize`, with
fuel; returns the accepted colour and the next rng index. -/
def pickGemType (gm : GridManager) (rng : Nat → Nat) (row col : Nat) :
    Nat → Nat → Option (Nat × Nat)
  | 0, _ => Option.none
  | fuel + 1, idx =>
    let t := rng idx % numGemColors
    if wouldCreateMatch gm row col t then pickGemType gm rng row col fuel (idx + 1)
    else some (t, idx + 1)

/-- Fill one row of `initialize`, left to right; the grid under
construction is `prevRows ++ [curRow]` and the next column index is
`curRow.length`. -/
def initFillRow (rows cols : Nat) (rng : Nat → Nat) (fuel : Nat)
    (prevRows : Grid) (row : Nat) :
    Nat → List Cell → Nat → Option (List Cell × Nat)
  | 0, curRow, idx => some (curRow, idx)
  | rem + 1, curRow, idx =>
    let col := curRow.length
    match pickGemType ⟨rows, cols, prevRows ++ [curRow]⟩ rng row col fuel idx with
    | Option.none => Option.none
    | some (t, idx') =>
      initFillRow rows cols rng fuel prevRows row rem
        (curRow ++ [some (createGem row col t)]) idx'

/-- Fill the grid of `initialize`, top row first; the next row index is
`g.length`. -/
def initFillGrid (rows cols : Nat) (rng : Nat → Nat) (fuel : Nat) :
    Nat → Grid → Nat → Option (Grid × Nat)
  | 0, g, idx => some (g, idx)
  | rem + 1, g, idx =>
    match initFillRow rows cols rng fuel g g.length cols [] idx with
    | Option.none => Option.none
    | some (r, idx') => initFillGrid rows cols rng fuel rem (g ++ [r]) idx'

/-- `GridManager.initialize()` (named `initGrid` here): fill every cell with a random gem,
re-rolling any colour that would complete a run of 3 with the already
placed left/up neighbours. -/
def initGrid (gm : GridManager) (rng : Nat → Nat) (fuel : Nat) :
    Option GridManager :=
  (initFillGrid gm.rows gm.cols rng fuel gm.rows [] 0).map fun p =>
    { gm with grid := p.1 }

/-! ## Combo system, power-ups and the move controller -/

/-- `COMBO_CONFIG.maxMultiplier`. -/
def maxMultiplier : Nat := 10

/-- The game-state fields touched by a move (grid manager, score, move
counter, combo counter, best combo, timer).  `moves` is `Int` because
`game.moves--` can go negative.  Win/lose evaluation (`checkGameState`)
and the real-time combo expiry are outside the model. -/
structure GameState where
  gm : GridManager
  score : Nat
  moves : Int
  comboCount : Nat
  maxCombo : Nat
  timer : Nat
deriving DecidableEq, Repr

/-- `resetCombo()`: zero the combo counter (the `clearTimeout` side is
real-time only). -/
def resetCombo (s : GameState) : GameState :=
  { s with comboCount := 0 }

/-- `incrementCombo()`: bump the combo counter (starting a combo at 1),
cap it at `COMBO_CONFIG.maxMultiplier`, track the best combo, and
return the new counter. -/
def incrementCombo (s : GameState) : GameState × Nat :=
  let c1 := if s.comboCount = 0 then 1 else s.comboCount + 1
  let c2 := if maxMultiplier < c1 then maxMultiplier else c1
  ({ s with comboCount := c2, maxCombo := max s.maxCombo c2 }, c2)

/-- Twice `getComboMultiplier()`: the JS multiplier is
`1 + (comboCount - 1) * 0.5 = (comboCount + 1) / 2`; it is kept doubled
so that the model stays in `Nat` (see the header note on exactness). -/
def comboMultiplierX2 (comboCount : Nat) : Nat :=
  comboCount + 1

/-- `Math.floor(baseScore * multiplier)` of the scoring code: with the
doubled multiplier this is floor division by 2, exact for the doubles
the source produces. -/
def applyComboMultiplier (baseScore comboCount : Nat) : Nat :=
  baseScore * comboMultiplierX2 comboCount / 2

/-- `getPowerUpForMatch(matchLength, direction)`: no power-up below the
creation threshold 4, a bomb for exactly 4, a colour clear for 5+.  The
`direction` argument is unused in the source too. -/
def getPowerUpForMatch (matchLength : Nat) (_direction : Direction) :
    PowerUpType :=
  if matchLength < 4 then PowerUpType.none
  else if matchLength = 4 then PowerUpType.bomb
  else if 5 ≤ matchLength then PowerUpType.colorClear
  else PowerUpType.none

/-- A pending power-up creation marker (`{row, col, type, powerUpType}`
pushed by `processPowerUpCreation`). -/
structure PowerUpSpec where
  row : Nat
  col : Nat
  type : Nat
  powerUpType : PowerUpType
deriving DecidableEq, Repr

/-- The grouping key `direction-matchType-color` of
`processPowerUpCreation`. -/
def groupKey (m : MatchRec) : Direction × Nat × Nat :=
  (m.direction, m.matchType, m.gem.type)

/-- `processPowerUpCreation(matches)`: group the match records by
`direction-matchType-color` (insertion order preserved, as for JS
object keys), and for each qualifying group mark a power-up at the
stored position of the gem at index `floor(length / 2)`. -/
def processPowerUpCreation (ms : List MatchRec) : List PowerUpSpec :=
  let groups : List ((Direction × Nat × Nat) × List Gem) :=
    ms.foldl
      (fun acc m =>
        let k := groupKey m
        if acc.any fun p => p.1 == k then
          acc.map fun p => if p.1 == k then (p.1, p.2 ++ [m.gem]) else p
        else acc ++ [(k, [m.gem])])
      []
  (groups.map fun p =>
    let put := getPowerUpForMatch p.1.2.1 p.1.1
    if put == PowerUpType.none then []
    else
      let centerGem := p.2.getD (p.2.length / 2) (createGem 0 0 0)
      [(⟨centerGem.row, centerGem.col, p.1.2.2, put⟩ : PowerUpSpec)]).flatten

/-- `activatePowerUp(gem)`: a bomb collects the gems in the 3×3 block
around the gem's *stored* position; a colour clear collects every gem of
the gem's colour; duplicates are skipped (`includes`). -/
def activatePowerUp (gm : GridManager) (gem : Gem) : List Gem :=
  match gem.powerUpType with
  | PowerUpType.none => []
  | PowerUpType.bomb =>
    [(gem.row : Int) - 1, (gem.row : Int), (gem.row : Int) + 1].foldl
      (fun acc r =>
        [(gem.col : Int) - 1, (gem.col : Int), (gem.col : Int) + 1].foldl
          (fun acc c =>
            match getGem gm r c with
            | some target => if acc.contains target then acc else acc ++ [target]
            | Option.none => acc)
          acc)
      []
  | PowerUpType.colorClear =>
    (List.range gm.rows).foldl
      (fun acc r =>
        (List.range gm.cols).foldl
          (fun acc c =>
            match getGem gm (r : Int) (c : Int) with
            | some target =>
              if target.type == gem.type && !(acc.contains target) then
                acc ++ [target]
              else acc
            | Option.none => acc)
          acc)
      []

/-- The local observables of one `swapGems` call (the source's local
variables, so that the theorems can speak about them). -/
structure SwapInfo where
  reverted : Bool
  powerUpActivated : Bool
  powerUpGemsToClear : List Gem
  allGemsToClearCount : Nat
  powerUpsToCreate : List PowerUpSpec
  cascadeCleared : Nat
  cascadeCycles : Nat
  scoreGained : Nat
deriving DecidableEq, Repr

/-- `swapGems(gem1, gem2)` — the move controller.  `(r1, c1)` and
`(r2, c2)` are the grid slots of the two gem objects; on entry their
stored `row`/`col` equal their slots (true whenever `handleGridClick`
invokes a swap on a coherent grid), so `tempRow = r1`, `tempCol = c1`.
Transcribed effects, in source order:

1. `resetCombo()`.
2. Forward swap (lines 3287–3296): the two slots exchange `type` and
   `powerUpType` in place, then the two objects' stored `row`/`col` are
   exchanged — leaving each object's stored position pointing at the
   *other* slot.
3. Power-up activation on the two (post-swap) objects.
4. `findMatches` on the swapped grid; `allGemsToClear` is the power-up
   set plus the unique matched gems not already in it.
5. Commit branch: `processPowerUpCreation` (when there are matches),
   one match cycle, the power-up placement loop (guarded by
   `grid[pu.row] && grid[pu.row][pu.col] === null`), `moves--` when
   there are matches, the cascade, `incrementCombo` once when the
   cascade cleared anything, then scoring and the timer bonuses.
6. Power-up-only branch: `moves--`, `incrementCombo`, `timer += 2`.
7. Revert branch (lines 3446–3468): the two slots' `type`/`powerUpType`
   are swapped back, then *both* objects' stored `row`/`col` are set to
   `tempRow`/`tempCol` (lines 3458–3461).

Returns `none` when a slot holds no gem (the JS code would throw) or
when the cascade exceeds `fuel`. -/
def swapGems (s : GameState) (r1 c1 r2 c2 : Nat) (rng : Nat → Nat)
    (idx fuel : Nat) : Option (GameState × SwapInfo) :=
  match cellAt s.gm.grid r1 c1, cellAt s.gm.grid r2 c2 with
  | some gem1, some gem2 =>
    let s := resetCombo s
    -- forward swap
    let g1 := setCell s.gm.grid r1 c1
      (some { gem1 with type := gem2.type, powerUpType := gem2.powerUpType,
                        row := r2, col := c2 })
    let g1 := setCell g1 r2 c2
      (some { gem2 with type := gem1.type, powerUpType := gem1.powerUpType,
                        row := r1, col := c1 })
    let gmSw := { s.gm with grid := g1 }
    -- power-up activation on the two post-swap objects
    let swapped1 := (cellAt g1 r1 c1).getD gem1
    let swapped2 := (cellAt g1 r2 c2).getD gem2
    let act1 := if swapped1.powerUpType != PowerUpType.none then
        activatePowerUp gmSw swapped1 else []
    let act2 := if swapped2.powerUpType != PowerUpType.none then
        activatePowerUp gmSw swapped2 else []
    let powerUpActivated :=
      swapped1.powerUpType != PowerUpType.none ||
      swapped2.powerUpType != PowerUpType.none
    let powerUpGemsToClear := act1 ++ act2
    -- match detection after swap
    let ms := findMatches gmSw
    let allGemsToClear :=
      if ms.length > 0 then
        (getMatchedGems gmSw).foldl
          (fun acc g => if acc.contains g then acc else acc ++ [g])
          powerUpGemsToClear
      else powerUpGemsToClear
    if allGemsToClear.length > 0 then
      -- commit
      let powerUpsToCreate :=
        if ms.length > 0 then processPowerUpCreation ms else []
      let cyc := processMatchCycle gmSw rng idx
      let gAfter := powerUpsToCreate.foldl
        (fun g pu =>
          if cellIsNull g pu.row pu.col then
            setCell g pu.row pu.col
              (some (createGem pu.row pu.col pu.type pu.powerUpType))
          else g)
        cyc.1.grid
      let s := { s with gm := { cyc.1 with grid := gAfter } }
      let s := if ms.length > 0 then { s with moves := s.moves - 1 } else s
      match processCascadeFuel rng fuel s.gm cyc.2.2 0 0 with
      | Option.none => Option.none
      | some (gmC, totalCleared, cycles, _) =>
        let s := { s with gm := gmC }
        let p :=
          if totalCleared > 0 then
            let q := incrementCombo s
            ({ q.1 with timer :=
                q.1.timer + (if q.2 > 1 then q.2 else 1) }, q.2)
          else (s, 0)
        let s := p.1
        let baseScore := allGemsToClear.length * 10
        let scoreGained0 := applyComboMultiplier baseScore s.comboCount
        let scoreGained :=
          if powerUpActivated then
            scoreGained0 + powerUpGemsToClear.length * 5
          else scoreGained0
        let s := { s with score := s.score + scoreGained,
                          timer := s.timer + 1 }
        some (s, ⟨false, powerUpActivated, powerUpGemsToClear,
          allGemsToClear.length, powerUpsToCreate, totalCleared, cycles,
          scoreGained⟩)
    else if powerUpActivated then
      -- power-up fired but produced nothing to clear and no match
      let s := { s with moves := s.moves - 1 }
      let q := incrementCombo s
      let s := { q.1 with timer := q.1.timer + 2 }
      some (s, ⟨false, true, powerUpGemsToClear, 0, [], 0, 0, 0⟩)
    else
      -- revert (lines 3446–3468)
      let g2 := setCell g1 r2 c2
        (some { gem2 with row := r1, col := c1 })
      let g2 := setCell g2 r1 c1 (some { gem1 with row := r1, col := c1 })
      let s := { s with gm := { s.gm with grid := g2 } }
      some (s, ⟨true, false, [], 0, [], 0, 0, 0⟩)
  | _, _ => Option.none

/-- Three consecutive same-coloured gems starting at offset `i` of a
line of cells (the building block both scanners detect). -/
def tripleAt (cells : List Cell) (i : Nat) : Prop :=
  sameType (cells.getD i Option.none) (cells.getD (i + 1) Option.none) = true ∧
  sameType (cells.getD (i + 1) Option.none) (cells.getD (i + 2) Option.none) = true

/-- The run state invariant of `runsGo`: consecutive run cells are
same-coloured (each cell extends its predecessor). -/
def chainF (run : List Cell) : Prop :=
  ∀ idx, idx + 1 < run.length →
    sameType (run.getD (idx + 1) Option.none) (run.getD idx Option.none) = true

/-- Every placed gem passed the construction check of `initialize`: no
cell completes a run of 3 with its two left or two up neighbours
(`wouldCreateMatch` only reads the grid, so the surrounding manager
fields are irrelevant). -/
def safeGrid (g : Grid) : Prop :=
  ∀ r c gem, cellAt g r c = some gem →
    wouldCreateMatch ⟨0, 0, g⟩ r c gem.type = false

/-! ## Specification-shaped column descriptions (for the gravity claim)

`droppedColumn` follows the spec's words — "compacts all non-empty
cells toward the highest row index preserving their relative order,
leaves the vacated top rows empty, and updates each moved gem's stored
row" — and is compared against the source-shaped `dropGems`. -/

/-- The gems of column `j` at rows `k, k+1, …, n-1` (top to bottom). -/
def colGems (g : Grid) (j k n : Nat) : List Gem :=
  ((List.range' k (n - k)).map fun r => cellAt g r j).filterMap id

/-- The given gems as cells, the gem at offset `i` with stored
`row := s + i`. -/
def renumberFrom : Nat → List Gem → List Cell
  | _, [] => []
  | s, gem :: gs => some { gem with row := s } :: renumberFrom (s + 1) gs

/-- What the spec says gravity does to one column of `n` cells: the
non-empty cells compacted to the bottom in order, rows renumbered, the
vacated top filled with `null`. -/
def droppedColumn (n : Nat) (orig : List Cell) : List Cell :=
  List.replicate (n - (orig.filterMap id).length) Option.none ++
    renumberFrom (n - (orig.filterMap id).length) (orig.filterMap id)

/-- Column `j` of `h` is the gravity-compaction of column `j` of `g`
(grids of `n` rows), stated cell-wise. -/
def columnDropped (g : Grid) (n : Nat) (h : Grid) (j : Nat) : Prop :=
  (∀ i gem, (colGems g j 0 n).get? i = some gem →
    cellAt h (n - (colGems g j 0 n).length + i) j =
      some { gem with row := n - (colGems g j 0 n).length + i }) ∧
  (∀ r, r < n - (colGems g j 0 n).length → cellAt h r j = Option.none)

/-- Invariant of the `dropGems` per-column loop: with rows
`k, …, n-1` of column `j` already processed, the grid `h` agrees with
the original `g` above row `k` and outside column `j`, carries the gems
of rows `≥ k` compacted to the bottom with renumbered rows, and is
empty in between; row lengths are preserved. -/
def DropInv (g : Grid) (n j k : Nat) (h : Grid) : Prop :=
  (h.length = g.length ∧ ∀ r, (h.getD r []).length = (g.getD r []).length) ∧
  (∀ r c, r < k ∨ c ≠ j → cellAt h r c = cellAt g r c) ∧
  (∀ i gem, (colGems g j k n).get? i = some gem →
    cellAt h (n - (colGems g j k n).length + i) j =
      some { gem with row := n - (colGems g j k n).length + i }) ∧
  (∀ r, k ≤ r → r < n - (colGems g j k n).length → cellAt h r j = Option.none)

/-! ## Concrete fixtures

Coherent grids built from colour matrices, used by the witnesses and
counterexamples below.  `mkGrid` places `createGem r c t` at each
position, exactly as the game's own construction does. -/

/-- Build a coherent grid from a matrix of optional colours. -/
def mkGrid (ts : List (List (Option Nat))) : Grid :=
  ts.enum.map fun p => p.2.enum.map fun q => q.2.map fun t => createGem p.1 q.1 t

/-- The game's grid manager before `initialize`: 10×10, empty grid. -/
def gm10 : GridManager := ⟨10, 10, []⟩

/-- C2 fixture: a 1×2 grid with colours `[0, 1]`; swapping the two
cells produces no match and no power-up, so the swap reverts. -/
def sC2 : GameState := ⟨⟨1, 2, mkGrid [[some 0, some 1]]⟩, 0, 30, 0, 0, 60⟩

/-- C3/C4 base grid: 3×3, no match; swapping `(2,0)` with `(2,1)`
turns column 0 into a vertical `[0,0,0]` triple. -/
def gridC34 : Grid := mkGrid [
  [some 0, some 1, some 2],
  [some 0, some 2, some 1],
  [some 1, some 0, some 2]]

/-- C3 fixture state. -/
def sC3 : GameState := ⟨⟨3, 3, gridC34⟩, 100, 30, 0, 0, 60⟩

/-- C3 refill stream: the first cycle refills `(0,0),(0,1),(1,0)` with
`2,2,3` (making row 0 a `2,2,2` triple), cascade cycle 1 refills row 0
with `3,3,3` (another triple), cascade cycle 2 refills row 0 with
`1,0,3` (no further match) — a cascade of exactly 2 extra cycles. -/
def rngC3 : Nat → Nat := fun i => [2, 2, 3, 3, 3, 3, 1, 0, 3].getD i 0

/-- C4 fixture state. -/
def sC4 : GameState := ⟨⟨3, 3, gridC34⟩, 100, 30, 0, 0, 60⟩

/-- C4 refill stream: the cycle refills `(0,0),(0,1),(1,0)` with
`3,0,2`, creating no further match — no cascade cycle runs. -/
def rngC4 : Nat → Nat := fun i => [3, 0, 2].getD i 0

/-- C5 counterexample fixture: the all-colour-0 10×10 grid (what
`refillGrid` produces under a constant-0 rng after a full clear). -/
def gmZ10 : GridManager :=
  ⟨10, 10, mkGrid (List.replicate 10 (List.replicate 10 (some 0)))⟩

/-- C5 witness fixture: a 2×2 grid with no match. -/
def gmC5w : GridManager := ⟨2, 2, mkGrid [[some 0, some 1], [some 1, some 0]]⟩

/-- C6 witness fixture: a 3×3 grid with no match. -/
def gmC6w : GridManager := ⟨3, 3, mkGrid [
  [some 0, some 1, some 2],
  [some 1, some 2, some 0],
  [some 0, some 1, some 2]]⟩

/-- C7 witness fixture: a single column `[A, empty, B, empty, empty]`
(top to bottom), the spec's gravity scenario. -/
def gmC7w : GridManager :=
  ⟨5, 1, mkGrid [[some 0], [Option.none], [some 1], [Option.none], [Option.none]]⟩

/-- C8 fixture: 4×4, no match; swapping `(2,2)` with `(3,2)` turns
row 3 into a horizontal `[0,0,0,0]` 4-run. -/
def sC8 : GameState := ⟨⟨4, 4, mkGrid [
  [some 1, some 2, some 3, some 1],
  [some 2, some 3, some 1, some 2],
  [some 3, some 1, some 0, some 3],
  [some 0, some 0, some 2, some 0]]⟩, 0, 30, 0, 0, 60⟩

/-- C8 refill stream: the cycle refills the vacated row 0 with
`0,1,0,1`, creating no further match. -/
def rngC8 : Nat → Nat := fun i => [0, 1, 0, 1].getD i 0

/-- C9 witness fixture: a 1×1 grid. -/
def gmC9w : GridManager := ⟨1, 1, mkGrid [[some 2]]⟩

/-- C10 witness fixture: a 3×3 grid with an empty cell and a horizontal
triple. -/
def gmC10w : GridManager := ⟨3, 3, mkGrid [
  [some 0, some 0, some 0],
  [some 1, Option.none, some 2],
  [some 2, some 1, some 0]]⟩

/-! ## Shared lemmas -/

/-- A cycle on a matchless grid is the identity round. -/
theorem processMatchCycle_no_match (gm : GridManager) (rng : Nat → Nat)
    (idx : Nat) (h : findMatches gm = []) :
    processMatchCycle gm rng idx = (gm, ⟨false, 0, 0, 0, []⟩, idx) := by
  simp [processMatchCycle, h]

/-- A cycle on a grid with a match reports `processed = true`. -/
theorem processMatchCycle_processed (gm : GridManager) (rng : Nat → Nat)
    (idx : Nat) (h : findMatches gm ≠ []) :
    (processMatchCycle gm rng idx).2.1.processed = true := by
  simp [processMatchCycle, List.isEmpty_iff, h]

/-- `refillCell` with a constant rng does not look at the threaded rng
index: grid and spawn count components agree across index values. -/
theorem refillCell_const (k row col : Nat) (p q : Grid × Nat × Nat)
    (h1 : p.1 = q.1) (h2 : p.2.1 = q.2.1) :
    (refillCell (fun _ => k) row p col).1 = (refillCell (fun _ => k) row q col).1 ∧
    (refillCell (fun _ => k) row p col).2.1 = (refillCell (fun _ => k) row q col).2.1 := by
  unfold refillCell
  rw [h1]
  cases cellAt q.1 row col <;> simp [h1, h2]

/-- Fold form of `refillCell_const` over one row. -/
theorem refillRow_const (k row : Nat) :
    ∀ (l : List Nat) (p q : Grid × Nat × Nat),
      p.1 = q.1 → p.2.1 = q.2.1 →
      ((l.foldl (refillCell (fun _ => k) row) p).1 =
        (l.foldl (refillCell (fun _ => k) row) q).1 ∧
       (l.foldl (refillCell (fun _ => k) row) p).2.1 =
        (l.foldl (refillCell (fun _ => k) row) q).2.1)
  | [], p, q, h1, h2 => ⟨h1, h2⟩
  | col :: l, p, q, h1, h2 => by
    have h := refillCell_const k row col p q h1 h2
    exact refillRow_const k row l _ _ h.1 h.2

/-- Fold form of `refillCell_const` over the whole grid. -/
theorem refillRows_const (k cols : Nat) :
    ∀ (l : List Nat) (p q : Grid × Nat × Nat),
      p.1 = q.1 → p.2.1 = q.2.1 →
      ((l.foldl (fun p row => (List.range cols).foldl (refillCell (fun _ => k) row) p) p).1 =
        (l.foldl (fun p row => (List.range cols).foldl (refillCell (fun _ => k) row) p) q).1 ∧
       (l.foldl (fun p row => (List.range cols).foldl (refillCell (fun _ => k) row) p) p).2.1 =
        (l.foldl (fun p row => (List.range cols).foldl (refillCell (fun _ => k) row) p) q).2.1)
  | [], p, q, h1, h2 => ⟨h1, h2⟩
  | row :: l, p, q, h1, h2 => by
    have h := refillRow_const k row (List.range cols) p q h1 h2
    exact refillRows_const k cols l _ _ h.1 h.2

/-- `refillGrid` under a constant rng: the refilled grid and the spawn
count do not depend on the starting rng index. -/
theorem refillGrid_const (gm : GridManager) (k i : Nat) :
    (refillGrid gm (fun _ => k) i).1 = (refillGrid gm (fun _ => k) 0).1 ∧
    (refillGrid gm (fun _ => k) i).2.1 = (refillGrid gm (fun _ => k) 0).2.1 := by
  have h := refillRows_const k gm.cols (List.range gm.rows)
    (gm.grid, 0, i) (gm.grid, 0, 0) rfl rfl
  unfold refillGrid
  exact ⟨by simp only [h.1], by simp only [h.2]⟩

/-- `processMatchCycle` under a constant rng: the resulting grid state
does not depend on the starting rng index. -/
theorem processMatchCycle_const (gm : GridManager) (k i : Nat) :
    (processMatchCycle gm (fun _ => k) i).1 =
      (processMatchCycle gm (fun _ => k) 0).1 := by
  unfold processMatchCycle
  cases h : (findMatches gm).isEmpty <;>
    simp [h, (refillGrid_const (dropGems (removeMatchedGems gm
      (getMatchedGems gm)).1).1 k i).1]

/-- If one cycle with a constant rng maps `gm` back to itself and `gm`
has a match, the cascade loop never exits: `processCascadeFuel` returns
`none` for every fuel. -/
theorem cascade_stuck (k : Nat) (gm : GridManager)
    (hm : findMatches gm ≠ [])
    (hfix : (processMatchCycle gm (fun _ => k) 0).1 = gm) :
    ∀ (fuel idx tot cyc : Nat),
      processCascadeFuel (fun _ => k) fuel gm idx tot cyc = Option.none
  | 0, _, _, _ => rfl
  | fuel + 1, idx, tot, cyc => by
    have hp := processMatchCycle_processed gm (fun _ => k) idx hm
    have hg : (processMatchCycle gm (fun _ => k) idx).1 = gm :=
      (processMatchCycle_const gm k idx).trans hfix
    unfold processCascadeFuel
    rw [if_pos hp, hg]
    exact cascade_stuck k gm hm hfix fuel _ _ _

/-! ## Claim theorems (C2–C6, C8, C9) -/

/-- C2: the claim says a no-match, no-power-up swap leaves the grid
identical to its pre-swap state — every cell's colour and power-up tag
*and every gem's stored row and col* — with moves and score unchanged.
The code restores colours, tags, moves and score, but the revert branch
(game.js 3458–3461) writes `tempRow`/`tempCol` — the *first* gem's
original position — into *both* gems, so the second cell's gem ends up
storing the first cell's coordinates: here cell `(0,1)` holds a gem
with stored position `(0,0)`, and the grid differs from its pre-swap
state. -/
theorem c2_swap_revert_corrupts_stored_position :
    ((swapGems sC2 0 0 0 1 (fun _ => 0) 0 5).map fun p =>
      (p.2.reverted, p.1.moves, p.1.score, cellAt p.1.gm.grid 0 1)) =
      some (true, 30, 0, some ⟨1, PowerUpType.none, 0, 0⟩) ∧
    ((swapGems sC2 0 0 0 1 (fun _ => 0) 0 5).map fun p => p.1.gm.grid) ≠
      some sC2.gm.grid := by
  constructor
  · decide
  · decide

/-- C3: the claim says the combo counter rises by `N` for a swap whose
cascade runs `N` extra cycles.  On `sC3` with the stream `rngC3` the
cascade runs 2 extra cycles (clearing 6 more gems), yet `comboCount`
ends at 1: `incrementCombo` is invoked once after the whole cascade
(game.js 3396), not once per cycle, so the counter never exceeds 1. -/
theorem c3_combo_increments_once_per_swap :
    ((swapGems sC3 2 0 2 1 rngC3 0 10).map fun p =>
      (p.2.cascadeCycles, p.2.cascadeCleared, p.1.comboCount, p.1.maxCombo)) =
      some (2, 6, 1, 1) := by decide

/-- C4: the claim says a committed swap with no extra cascade cycle
scores `cleared × 10` (multiplier exactly 1).  On `sC4` with stream
`rngC4` the swap clears 3 cells with no cascade and no power-up, but
`comboCount` is 0 at scoring time (reset at move start, never
incremented), so `getComboMultiplier()` returns `1 + (0-1)*0.5 = 0.5`
and the score gained is `floor(30 * 0.5) = 15`, not 30. -/
theorem c4_no_cascade_swap_scores_half :
    ((swapGems sC4 2 0 2 1 rngC4 0 5).map fun p =>
      (p.2.allGemsToClearCount, p.2.cascadeCycles, p.2.powerUpActivated,
        p.2.scoreGained, p.1.score)) =
      some (3, 0, false, 15, 115) := by decide

/-- C5 (counterexample): `processCascade` has no cycle cap.  On the
all-colour-0 10×10 grid — exactly what `refillGrid` produces under a
constant-0 rng after a full clear — every cycle clears all 100 cells
and refills them with the same colour, so the loop never exits: even
1000 cycles of fuel are exhausted (`cascade_stuck` proves this for
every fuel). -/
theorem c5_cascade_no_cycle_bound :
    processCascadeFuel (fun _ => 0) 1000 gmZ10 0 0 0 = Option.none :=
  cascade_stuck 0 gmZ10 (by decide) (by decide) 1000 0 0 0

/-- C5 (amended): `processCascade` terminates only by reaching a cycle
with no matches — on termination the final grid is matchless and the
accumulated cleared count never decreases (hence `totalCleared ≥ 0`);
no cycle bound exists in the code. -/
theorem c5_cascade_terminates_only_matchless (rng : Nat → Nat) :
    ∀ (fuel : Nat) (gm : GridManager) (idx tot cyc : Nat)
      (gm' : GridManager) (total cycles idx' : Nat),
      processCascadeFuel rng fuel gm idx tot cyc =
        some (gm', total, cycles, idx') →
      findMatches gm' = [] ∧ tot ≤ total
  | 0, _, _, _, _, _, _, _, _, h => by cases h
  | fuel + 1, gm, idx, tot, cyc, gm', total, cycles, idx', h => by
    rw [processCascadeFuel] at h
    by_cases hm : findMatches gm = []
    · rw [processMatchCycle_no_match gm rng idx hm] at h
      simp only [Bool.false_eq_true, if_false, Option.some.injEq,
        Prod.mk.injEq] at h
      obtain ⟨h1, h2, -, -⟩ := h
      exact ⟨h1 ▸ hm, h2 ▸ Nat.le_refl tot⟩
    · rw [if_pos (processMatchCycle_processed gm rng idx hm)] at h
      have ih := c5_cascade_terminates_only_matchless rng fuel
        (processMatchCycle gm rng idx).1 (processMatchCycle gm rng idx).2.2
        (tot + (processMatchCycle gm rng idx).2.1.removed) (cyc + 1)
        gm' total cycles idx' h
      exact ⟨ih.1, Nat.le_trans (Nat.le_add_right _ _) ih.2⟩

/-- C5 witness: a matchless grid terminates the cascade immediately
with zero cleared. -/
theorem c5_witness : findMatches gmC5w = [] ∧ (0 : Nat) ≤ 0 :=
  c5_cascade_terminates_only_matchless (fun _ => 1) 3 gmC5w 0 0 0
    gmC5w 0 0 0 (by decide)

/-- C6: on a grid with no matches, `processMatchCycle` reports
`processed = false` with zero counts and performs no mutation: it
returns the grid unchanged. -/
theorem c6_cycle_noop_on_matchless_grid (gm : GridManager)
    (rng : Nat → Nat) (idx : Nat) (h : findMatches gm = []) :
    processMatchCycle gm rng idx = (gm, ⟨false, 0, 0, 0, []⟩, idx) :=
  processMatchCycle_no_match gm rng idx h

/-- C6 witness: the matchless 3×3 fixture. -/
theorem c6_witness :
    findMatches gmC6w = [] ∧
    processMatchCycle gmC6w (fun _ => 1) 7 = (gmC6w, ⟨false, 0, 0, 0, []⟩, 7) :=
  ⟨by decide, c6_cycle_noop_on_matchless_grid gmC6w (fun _ => 1) 7 (by decide)⟩

/-- C8: the claim says a swap producing a horizontal 4-run of colour B
places one `areaClear` (bomb) gem of colour B at the run's centre,
provided the cell is empty after the cycle.  On `sC8` the swap makes
row 3 the 4-run `[0,0,0,0]`; `processPowerUpCreation` duly computes one
bomb spec of colour 0 — at `(2,2)`, the *stored* (pre-swap) position of
the swapped centre gem — but the cycle's refill fills every cell, so
the `grid[pu.row][pu.col] === null` guard (game.js 3370) always fails
and the finished grid contains no power-up gem at all. -/
theorem c8_powerup_computed_but_never_placed :
    ((swapGems sC8 2 2 3 2 rngC8 0 5).map fun p =>
      (p.2.powerUpsToCreate,
        (p.1.gm.grid.flatten.filterMap id).filter
          (fun g => g.powerUpType != PowerUpType.none),
        p.1.gm.grid.flatten.all Option.isSome)) =
      some ([⟨2, 2, 0, PowerUpType.bomb⟩], [], true) := by decide

/-- C9: `getGem` rejects any request outside `[0, rows) × [0, cols)`
with `null` and otherwise returns the content of the requested cell;
being a pure read, it never mutates the grid (`gm` is untouched). -/
theorem c9_getGem_bounds (gm : GridManager) (row col : Int) :
    (¬ (0 ≤ row ∧ row < (gm.rows : Int) ∧ 0 ≤ col ∧ col < (gm.cols : Int)) →
      getGem gm row col = Option.none) ∧
    ((0 ≤ row ∧ row < (gm.rows : Int) ∧ 0 ≤ col ∧ col < (gm.cols : Int)) →
      getGem gm row col = cellAt gm.grid row.toNat col.toNat) := by
  constructor <;> intro h <;> simp [getGem, h]

/-- C9 witness: a negative row is rejected; the in-bounds read returns
the cell. -/
theorem c9_witness :
    getGem gmC9w (-1) 0 = Option.none ∧
    getGem gmC9w 0 0 = cellAt gmC9w.grid 0 0 :=
  ⟨(c9_getGem_bounds gmC9w (-1) 0).1 (by decide),
    (c9_getGem_bounds gmC9w 0 0).2 (by decide)⟩

/-! ## Gravity (C7) -/

theorem length_setCell (g : Grid) (r c : Nat) (v : Cell) :
    (setCell g r c v).length = g.length := by
  simp [setCell]

theorem getD_setCell_row_ne (g : Grid) {r r' : Nat} (c : Nat) (v : Cell)
    (h : r' ≠ r) : (setCell g r c v).getD r' [] = g.getD r' [] := by
  simp only [setCell, List.getD_eq_getElem?_getD]
  rw [List.getElem?_set_ne (by omega)]

theorem getD_setCell_row_self (g : Grid) {r : Nat} (c : Nat) (v : Cell)
    (hr : r < g.length) :
    (setCell g r c v).getD r [] = (g.getD r []).set c v := by
  simp only [setCell, List.getD_eq_getElem?_getD]
  rw [List.getElem?_set_self hr]
  rfl

theorem setCell_noop (g : Grid) {r : Nat} (c : Nat) (v : Cell)
    (hr : ¬ r < g.length) : setCell g r c v = g := by
  unfold setCell
  exact List.set_eq_of_length_le (by omega)

theorem rowLen_setCell (g : Grid) (r c : Nat) (v : Cell) (r' : Nat) :
    ((setCell g r c v).getD r' []).length = (g.getD r' []).length := by
  rcases eq_or_ne r' r with rfl | hne
  · by_cases hr : r' < g.length
    · rw [getD_setCell_row_self g c v hr, List.length_set]
    · rw [setCell_noop g c v hr]
  · rw [getD_setCell_row_ne g c v hne]

theorem cellAt_setCell_ne (g : Grid) {r c r' c' : Nat} (v : Cell)
    (h : r' ≠ r ∨ c' ≠ c) :
    cellAt (setCell g r c v) r' c' = cellAt g r' c' := by
  rcases eq_or_ne r' r with rfl | hrne
  · have hcne : c' ≠ c := h.resolve_left (by simp)
    by_cases hr : r' < g.length
    · rw [cellAt, cellAt, getD_setCell_row_self g c v hr,
        List.getD_eq_getElem?_getD ((g.getD r' []).set c v),
        List.getElem?_set_ne (by omega), ← List.getD_eq_getElem?_getD]
    · rw [setCell_noop g c v hr]
  · rw [cellAt, getD_setCell_row_ne g c v hrne, cellAt]

theorem cellAt_setCell_self (g : Grid) {r c : Nat} (v : Cell)
    (hr : r < g.length) (hc : c < (g.getD r []).length) :
    cellAt (setCell g r c v) r c = v := by
  rw [cellAt, getD_setCell_row_self g c v hr, List.getD_eq_getElem?_getD,
    List.getElem?_set_self hc]
  rfl

theorem colGems_of_ge (g : Grid) (j k n : Nat) (h : n ≤ k) :
    colGems g j k n = [] := by
  unfold colGems
  rw [Nat.sub_eq_zero_of_le h]
  rfl

theorem colGems_succ_none (g : Grid) (j k n : Nat) (hk : k < n)
    (hc : cellAt g k j = Option.none) :
    colGems g j k n = colGems g j (k + 1) n := by
  unfold colGems
  rw [show n - k = (n - (k + 1)) + 1 by omega, List.range'_succ]
  simp [hc]

theorem colGems_succ_some (g : Grid) (j k n : Nat) (hk : k < n)
    {gem : Gem} (hc : cellAt g k j = some gem) :
    colGems g j k n = gem :: colGems g j (k + 1) n := by
  unfold colGems
  rw [show n - k = (n - (k + 1)) + 1 by omega, List.range'_succ]
  simp [hc]

theorem colGems_length_le (g : Grid) (j k n : Nat) :
    (colGems g j k n).length ≤ n - k := by
  calc (colGems g j k n).length
      ≤ ((List.range' k (n - k)).map fun r => cellAt g r j).length :=
        List.length_filterMap_le _ _
    _ = n - k := by simp

/-- The per-column loop only writes into its own column. -/
theorem dropColLoop_other (j : Nat) {c0 : Nat} (hc : c0 ≠ j) :
    ∀ (iter : Nat) (h : Grid) (e d : Nat) (r : Nat),
      cellAt (dropColLoop j iter h e d).1 r c0 = cellAt h r c0
  | 0, h, e, d, r => rfl
  | iter + 1, h, e, d, r => by
    cases hcell : cellAt h iter j with
    | none =>
      simp only [dropColLoop, hcell]
      exact dropColLoop_other j hc iter h e d r
    | some gem =>
      by_cases hie : iter ≠ e
      · simp only [dropColLoop, hcell, if_pos hie]
        rw [dropColLoop_other j hc iter _ _ _ r,
          cellAt_setCell_ne _ _ (Or.inr hc), cellAt_setCell_ne _ _ (Or.inr hc)]
      · simp only [dropColLoop, hcell, if_neg hie]
        exact dropColLoop_other j hc iter h _ d r

/-- The per-column loop preserves the grid shape. -/
theorem dropColLoop_shape (j : Nat) :
    ∀ (iter : Nat) (h : Grid) (e d : Nat),
      (dropColLoop j iter h e d).1.length = h.length ∧
      ∀ r, ((dropColLoop j iter h e d).1.getD r []).length =
        (h.getD r []).length
  | 0, h, e, d => ⟨rfl, fun _ => rfl⟩
  | iter + 1, h, e, d => by
    cases hcell : cellAt h iter j with
    | none =>
      simp only [dropColLoop, hcell]
      exact dropColLoop_shape j iter h e d
    | some gem =>
      by_cases hie : iter ≠ e
      · simp only [dropColLoop, hcell, if_pos hie]
        obtain ⟨h1, h2⟩ := dropColLoop_shape j iter
          (setCell (setCell h e j (some { gem with row := e })) iter j
            Option.none) (e - 1) (d + 1)
        refine ⟨by rw [h1, length_setCell, length_setCell], fun r => ?_⟩
        rw [h2 r, rowLen_setCell, rowLen_setCell]
      · simp only [dropColLoop, hcell, if_neg hie]
        exact dropColLoop_shape j iter h (e - 1) d

/-- The invariant holds before any row is processed. -/
theorem DropInv_init (g : Grid) (n j : Nat) : DropInv g n j n g := by
  refine ⟨⟨rfl, fun _ => rfl⟩, fun _ _ _ => rfl, ?_, ?_⟩
  · intro i gem hi
    rw [colGems_of_ge g j n n (Nat.le_refl n)] at hi
    cases hi
  · intro r hr hrn
    rw [colGems_of_ge g j n n (Nat.le_refl n)] at hrn
    omega

/-- Main invariant of the `dropGems` column loop: starting with rows
`≥ iter` processed and `emptyRow` one below the compacted block, the
loop ends in the fully compacted column state. -/
theorem dropColLoop_inv (g : Grid) (n j : Nat)
    (hco : ∀ r gem, cellAt g r j = some gem → gem.row = r)
    (hglen : g.length = n)
    (hrow : ∀ r, r < n → j < (g.getD r []).length) :
    ∀ (iter : Nat) (h : Grid) (e d : Nat), iter ≤ n →
      DropInv g n j iter h →
      (iter ≠ 0 → e + (colGems g j iter n).length + 1 = n) →
      DropInv g n j 0 (dropColLoop j iter h e d).1
  | 0, h, e, d, _, inv, _ => inv
  | iter + 1, h, e, d, hle, inv, he => by
    obtain ⟨⟨hlen, hrlen⟩, hunt, hplaced, hempt⟩ := inv
    have hitn : iter < n := by omega
    have hcell : cellAt h iter j = cellAt g iter j :=
      hunt iter j (Or.inl (Nat.lt_succ_self iter))
    have hee : e + (colGems g j (iter + 1) n).length + 1 = n :=
      he (Nat.succ_ne_zero iter)
    have hlenb : (colGems g j (iter + 1) n).length ≤ n - (iter + 1) :=
      colGems_length_le g j (iter + 1) n
    have hite : iter ≤ e := by omega
    cases hg : cellAt g iter j with
    | none =>
      have hrec : colGems g j iter n = colGems g j (iter + 1) n :=
        colGems_succ_none g j iter n hitn hg
      have hcn : cellAt h iter j = Option.none := by rw [hcell, hg]
      simp only [dropColLoop, hcn]
      refine dropColLoop_inv g n j hco hglen hrow iter h e d (by omega)
        ⟨⟨hlen, hrlen⟩, ?_, ?_, ?_⟩ ?_
      · intro r c hrc
        refine hunt r c ?_
        rcases hrc with hr | hc
        · exact Or.inl (by omega)
        · exact Or.inr hc
      · rw [hrec]; exact hplaced
      · intro r hr hrn
        rw [hrec] at hrn
        rcases Nat.eq_or_lt_of_le hr with rfl | hlt
        · exact hcn
        · exact hempt r hlt hrn
      · intro _
        rw [hrec]; exact hee
    | some gem =>
      have hrec : colGems g j iter n = gem :: colGems g j (iter + 1) n :=
        colGems_succ_some g j iter n hitn hg
      have hcs : cellAt h iter j = some gem := by rw [hcell, hg]
      have hpos1 : n - (colGems g j iter n).length = e := by
        rw [hrec]; simp only [List.length_cons]; omega
      have hpos2 : n - (colGems g j (iter + 1) n).length = e + 1 := by omega
      by_cases hie : iter = e
      · -- the gem is already in place; no write happens
        simp only [dropColLoop, hcs, if_neg (by omega : ¬ iter ≠ e)]
        refine dropColLoop_inv g n j hco hglen hrow iter h (e - 1) d
          (by omega) ⟨⟨hlen, hrlen⟩, ?_, ?_, ?_⟩ ?_
        · intro r c hrc
          refine hunt r c ?_
          rcases hrc with hr | hc
          · exact Or.inl (by omega)
          · exact Or.inr hc
        · intro i g' hi
          rw [hrec] at hi ⊢
          cases i with
          | zero =>
            simp only [List.get?] at hi
            cases hi
            rw [List.length_cons, show n - ((colGems g j (iter + 1) n).length + 1)
              + 0 = iter by omega]
            rw [hcs]
            have : gem.row = iter := hco iter gem hg
            cases gem
            simp_all
          | succ i =>
            simp only [List.get?] at hi
            have := hplaced i g' hi
            rw [List.length_cons,
              show n - ((colGems g j (iter + 1) n).length + 1) + (i + 1)
                = n - (colGems g j (iter + 1) n).length + i by omega]
            exact this
        · intro r hr hrn
          rw [hpos1] at hrn
          omega
        · intro hi0
          rw [hrec, List.length_cons]
          omega
      · -- the gem moves down to `emptyRow`
        have hilt : iter < e := by omega
        have hen : e < n := by omega
        simp only [dropColLoop, hcs, if_pos (by omega : iter ≠ e)]
        have hh2len :
            (setCell (setCell h e j (some { gem with row := e })) iter j
              Option.none).length = g.length := by
          rw [length_setCell, length_setCell, hlen]
        have hh2row : ∀ r,
            ((setCell (setCell h e j (some { gem with row := e })) iter j
              Option.none).getD r []).length = (g.getD r []).length := by
          intro r
          rw [rowLen_setCell, rowLen_setCell, hrlen]
        refine dropColLoop_inv g n j hco hglen hrow iter _ (e - 1) (d + 1)
          (by omega) ⟨⟨hh2len, hh2row⟩, ?_, ?_, ?_⟩ ?_
        · intro r c hrc
          have hne1 : r ≠ iter ∨ c ≠ j := by
            rcases hrc with hr | hc
            · exact Or.inl (by omega)
            · exact Or.inr hc
          have hne2 : r ≠ e ∨ c ≠ j := by
            rcases hrc with hr | hc
            · exact Or.inl (by omega)
            · exact Or.inr hc
          rw [cellAt_setCell_ne _ _ hne1, cellAt_setCell_ne _ _ hne2]
          exact hunt r c (hrc.imp (fun hr => by omega) id)
        · intro i g' hi
          rw [hrec] at hi ⊢
          cases i with
          | zero =>
            simp only [List.get?] at hi
            cases hi
            rw [List.length_cons, show n - ((colGems g j (iter + 1) n).length + 1)
              + 0 = e by omega]
            rw [cellAt_setCell_ne _ _ (Or.inl (by omega : e ≠ iter)),
              cellAt_setCell_self]
            · rw [hlen, hglen]; exact hen
            · rw [hrlen]; exact hrow e hen
          | succ i =>
            simp only [List.get?] at hi
            have hold := hplaced i g' hi
            rw [List.length_cons,
              show n - ((colGems g j (iter + 1) n).length + 1) + (i + 1)
                = n - (colGems g j (iter + 1) n).length + i by omega]
            rw [cellAt_setCell_ne _ _ (Or.inl (by omega : n -
              (colGems g j (iter + 1) n).length + i ≠ iter)),
              cellAt_setCell_ne _ _ (Or.inl (by omega : n -
              (colGems g j (iter + 1) n).length + i ≠ e))]
            exact hold
        · intro r hr hrn
          rw [hpos1] at hrn
          rcases Nat.eq_or_lt_of_le hr with heq | hlt
          · rw [← heq, cellAt_setCell_self]
            · rw [length_setCell, hlen, hglen]; exact hitn
            · rw [rowLen_setCell, hrlen]; exact hrow iter hitn
          · rw [cellAt_setCell_ne _ _ (Or.inl (by omega : r ≠ iter)),
              cellAt_setCell_ne _ _ (Or.inl (by omega : r ≠ e))]
            exact hempt r hlt (by omega)
        · intro hi0
          rw [hrec, List.length_cons]
          omega

theorem colGems_congr (g h : Grid) (j k n : Nat)
    (hc : ∀ r, cellAt h r j = cellAt g r j) :
    colGems h j k n = colGems g j k n := by
  unfold colGems
  rw [List.map_eq_map_iff.mpr fun r _ => hc r]

theorem length_renumberFrom : ∀ (s : Nat) (gs : List Gem),
    (renumberFrom s gs).length = gs.length
  | _, [] => rfl
  | s, gem :: gs => by
    rw [renumberFrom, List.length_cons, List.length_cons,
      length_renumberFrom (s + 1) gs]

theorem get?_renumberFrom : ∀ (s : Nat) (gs : List Gem) (i : Nat),
    (renumberFrom s gs).get? i =
      (gs.get? i).map fun gem => some { gem with row := s + i }
  | _, [], i => by cases i <;> rfl
  | s, gem :: gs, 0 => by simp [renumberFrom]
  | s, gem :: gs, i + 1 => by
    rw [renumberFrom]
    show (renumberFrom (s + 1) gs).get? i = _
    rw [get?_renumberFrom (s + 1) gs i]
    show _ = (gs.get? i).map fun gem => some { gem with row := s + (i + 1) }
    rw [show s + (i + 1) = s + 1 + i by omega]

/-- Cells of `mkGrid` are `createGem` at their own position. -/
theorem cellAt_mkGrid (ts : List (List (Option Nat))) (r c : Nat) :
    cellAt (mkGrid ts) r c =
      ((ts.getD r []).getD c Option.none).map fun t => createGem r c t := by
  have hmk : (mkGrid ts).get? r = (ts.get? r).map fun rowT =>
      rowT.enum.map fun q => q.2.map fun t => createGem r q.1 t := by
    unfold mkGrid
    rw [List.get?_map, List.enum_get?]
    cases ts.get? r with
    | none => rfl
    | some rowT => rfl
  cases hr : ts.get? r with
  | none =>
    have h1 : (mkGrid ts).get? r = Option.none := by rw [hmk, hr]; rfl
    have h2 : (mkGrid ts).getD r [] = [] := by
      rw [List.getD_eq_getElem?_getD, ← List.get?_eq_getElem?, h1]; rfl
    have h3 : ts.getD r [] = [] := by
      rw [List.getD_eq_getElem?_getD, ← List.get?_eq_getElem?, hr]; rfl
    rw [cellAt, h2, h3]; rfl
  | some rowT =>
    have h1 : (mkGrid ts).getD r [] =
        rowT.enum.map fun q => q.2.map fun t => createGem r q.1 t := by
      rw [List.getD_eq_getElem?_getD, ← List.get?_eq_getElem?, hmk, hr]; rfl
    have h3 : ts.getD r [] = rowT := by
      rw [List.getD_eq_getElem?_getD, ← List.get?_eq_getElem?, hr]; rfl
    rw [cellAt, h1, h3, List.getD_eq_getElem?_getD, ← List.get?_eq_getElem?,
      List.get?_map, List.enum_get?, List.getD_eq_getElem?_getD rowT,
      ← List.get?_eq_getElem?]
    cases rowT.get? c with
    | none => rfl
    | some t => rfl

/-- Grids built by `mkGrid` satisfy the stored-position invariant. -/
theorem mkGrid_coherent (ts : List (List (Option Nat))) :
    coherent (mkGrid ts) := by
  intro r c gem h
  rw [cellAt_mkGrid] at h
  cases ht : (ts.getD r []).getD c Option.none with
  | none => rw [ht] at h; cases h
  | some t =>
    rw [ht] at h
    cases h
    exact ⟨rfl, rfl⟩

/-- The `dropGems` fold over columns: every listed column of the result
is the compaction of the corresponding column of `g`, and unlisted
columns are untouched. -/
theorem dropFold_inv (n cols : Nat) (g : Grid) (hglen : g.length = n)
    (hcols : ∀ r, r < n → (g.getD r []).length = cols) :
    ∀ (l : List Nat) (cur : Grid) (d : Nat),
      cur.length = g.length →
      (∀ r, (cur.getD r []).length = (g.getD r []).length) →
      (∀ jj ∈ l, ∀ r, cellAt cur r jj = cellAt g r jj) →
      (∀ jj ∈ l, ∀ r gem, cellAt g r jj = some gem → gem.row = r) →
      (∀ jj ∈ l, jj < cols) →
      l.Nodup →
      (∀ c r, c ∉ l →
        cellAt (l.foldl (dropColStep n) (cur, d)).1 r c = cellAt cur r c) ∧
      (∀ jj ∈ l, columnDropped g n (l.foldl (dropColStep n) (cur, d)).1 jj)
  | [], cur, d, _, _, _, _, _, _ => ⟨fun _ _ _ => rfl, fun jj h => absurd h (by simp)⟩
  | jj :: rest, cur, d, hcl, hcr, hunt, hcoh, hbnd, hnd => by
    have hjcols : jj < cols := hbnd jj (by simp)
    have hjmem : ∀ r, cellAt cur r jj = cellAt g r jj := hunt jj (by simp)
    have hstep := dropColLoop_inv cur n jj
      (fun r gem hg => hcoh jj (by simp) r gem ((hjmem r) ▸ hg))
      (by omega)
      (fun r hr => by rw [hcr r, hcols r hr]; exact hjcols)
      n cur (n - 1) d (Nat.le_refl n) (DropInv_init cur n jj)
      (fun hn0 => by
        rw [colGems_of_ge cur jj n n (Nat.le_refl n)]
        simp only [List.length_nil]
        omega)
    obtain ⟨⟨hslen, hsrow⟩, hsunt, hsplaced, hsempt⟩ := hstep
    have hsunt' : ∀ r c, c ≠ jj →
        cellAt (dropColLoop jj n cur (n - 1) d).1 r c = cellAt cur r c :=
      fun r c hc => hsunt r c (Or.inr hc)
    have htrans : colGems cur jj 0 n = colGems g jj 0 n :=
      colGems_congr g cur jj 0 n hjmem
    have hnd' := hnd
    rw [List.nodup_cons] at hnd'
    have hfold :
        (jj :: rest).foldl (dropColStep n) (cur, d) =
        rest.foldl (dropColStep n) (dropColStep n (cur, d) jj) := rfl
    have hpair : dropColStep n (cur, d) jj =
        ((dropColLoop jj n cur (n - 1) d).1,
         (dropColLoop jj n cur (n - 1) d).2.2) := rfl
    have hih := dropFold_inv n cols g hglen hcols rest
      (dropColLoop jj n cur (n - 1) d).1
      (dropColLoop jj n cur (n - 1) d).2.2
      (by rw [hslen, hcl])
      (fun r => by rw [hsrow r, hcr r])
      (fun c hc r => by
        rw [hsunt' r c (fun hh => hnd'.1 (hh ▸ hc))]
        exact hunt c (by simp [hc]) r)
      (fun c hc r gem hg => hcoh c (by simp [hc]) r gem hg)
      (fun c hc => hbnd c (by simp [hc]))
      hnd'.2
    rw [hfold, hpair]
    refine ⟨?_, ?_⟩
    · intro c r hc
      have hcr1 : c ∉ rest := fun hh => hc (by simp [hh])
      have hcj : c ≠ jj := fun hh => hc (by simp [hh])
      rw [hih.1 c r hcr1]
      exact hsunt' r c hcj
    · intro c hcmem
      rcases List.mem_cons.mp hcmem with rfl | hcrest
      · -- the column processed in this step survives the rest of the fold
        refine ⟨?_, ?_⟩
        · intro i gem hi
          rw [hih.1 _ _ hnd'.1]
          rw [← htrans] at hi ⊢
          exact hsplaced i gem hi
        · intro r hr
          rw [hih.1 _ _ hnd'.1]
          rw [← htrans] at hr
          exact hsempt r (Nat.zero_le r) hr
      · exact hih.2 c hcrest

/-- Pointwise compaction (`columnDropped`) gives the spec's column
shape `droppedColumn`. -/
theorem columnDropped_eq (g h : Grid) (n j : Nat)
    (hcd : columnDropped g n h j) :
    (List.range n).map (fun r => cellAt h r j) =
      droppedColumn n ((List.range n).map fun r => cellAt g r j) := by
  obtain ⟨hplaced, hempt⟩ := hcd
  have hK : colGems g j 0 n =
      ((List.range n).map fun r => cellAt g r j).filterMap id := by
    unfold colGems
    rw [Nat.sub_zero, ← List.range_eq_range']
  have hKlen :
      (((List.range n).map fun r => cellAt g r j).filterMap id).length ≤ n := by
    have h1 := colGems_length_le g j 0 n
    rw [hK, Nat.sub_zero] at h1
    exact h1
  apply List.ext_get?
  intro i
  by_cases hin : i < n
  · have hlhs : ((List.range n).map fun r => cellAt h r j).get? i =
        some (cellAt h i j) := by
      rw [List.get?_map, List.get?_range hin]
      rfl
    rw [hlhs]
    unfold droppedColumn
    set K := ((List.range n).map fun r => cellAt g r j).filterMap id with hKd
    by_cases hrep : i < n - K.length
    · rw [List.get?_append (by simp [List.length_replicate]; omega)]
      rw [show (List.replicate (n - K.length) (Option.none : Cell)).get? i =
        some Option.none by
          rw [List.get?_eq_getElem?, List.getElem?_replicate, if_pos hrep]]
      rw [hempt i (by rw [hK]; exact hrep)]
    · rw [List.get?_append_right (by simp [List.length_replicate]; omega)]
      rw [List.length_replicate, get?_renumberFrom]
      have hi2 : i - (n - K.length) < K.length := by omega
      cases hk : K.get? (i - (n - K.length)) with
      | none =>
        exfalso
        have := List.get?_eq_none.mp hk
        omega
      | some gem =>
        have hp := hplaced (i - (n - K.length)) gem (by rw [hK]; exact hk)
        rw [hK] at hp
        rw [show n - K.length + (i - (n - K.length)) = i by omega] at hp
        rw [hp, show n - K.length + (i - (n - K.length)) = i by omega]
        rfl
  · have h1 : ((List.range n).map fun r => cellAt h r j).get? i =
        Option.none := by
      apply List.get?_eq_none.mpr
      simp
      omega
    have h2 : (droppedColumn n ((List.range n).map fun r => cellAt g r j)).get? i =
        Option.none := by
      apply List.get?_eq_none.mpr
      unfold droppedColumn
      rw [List.length_append, List.length_replicate, length_renumberFrom]
      omega
    rw [h1, h2]

/-- C7: `dropGems` compacts every column toward the highest row index,
preserving the relative order of its gems, leaves the vacated top rows
empty, and updates each gem's stored `row` to its new slot — the
column equals the spec-shaped `droppedColumn` of its pre-drop cells.
Hypotheses: a well-formed grid whose gems store their true positions
(the data-model invariant). -/
theorem c7_dropGems_gravity (gm : GridManager) (hwf : WF gm)
    (hco : coherent gm.grid) (j : Nat) (hj : j < gm.cols) :
    colCells (dropGems gm).1 j = droppedColumn gm.rows (colCells gm j) := by
  obtain ⟨hlen, hrows⟩ := hwf
  have hrowlen : ∀ r, r < gm.rows → (gm.grid.getD r []).length = gm.cols := by
    intro r hr
    cases hg : gm.grid.get? r with
    | none =>
      exfalso
      have := List.get?_eq_none.mp hg
      omega
    | some row =>
      rw [List.getD_eq_getElem?_getD, ← List.get?_eq_getElem?, hg]
      exact hrows row (List.get?_mem hg)
  have hfold := dropFold_inv gm.rows gm.cols gm.grid hlen hrowlen
    (List.range gm.cols) gm.grid 0 rfl (fun _ => rfl)
    (fun _ _ _ => rfl) (fun jj _ r gem hg => (hco r jj gem hg).1)
    (fun jj hjj => List.mem_range.mp hjj) (List.nodup_range _)
  exact columnDropped_eq gm.grid _ gm.rows j
    (hfold.2 j (List.mem_range.mpr hj))

/-- C7 witness: the spec's scenario column `[A, empty, B, empty,
empty]` becomes `[empty, empty, empty, A, B]` with the stored rows
updated to 3 and 4. -/
theorem c7_witness :
    colCells (dropGems gmC7w).1 0 = droppedColumn gmC7w.rows (colCells gmC7w 0) ∧
    colCells (dropGems gmC7w).1 0 =
      [Option.none, Option.none, Option.none,
        some (createGem 3 0 0), some (createGem 4 0 1)] :=
  ⟨c7_dropGems_gravity gmC7w ⟨by decide, by decide⟩ (mkGrid_coherent _) 0
    (by decide), by decide⟩

/-! ## Scanner equivalence (C10) -/

theorem sameType_comm (a b : Cell) : sameType a b = sameType b a := by
  cases a with
  | none => cases b <;> rfl
  | some g1 =>
    cases b with
    | none => rfl
    | some g2 =>
      show (g1.type == g2.type) = (g2.type == g1.type)
      rw [Bool.eq_iff_iff, beq_iff_eq, beq_iff_eq]
      exact eq_comm

theorem sameType_some (a b : Cell) (h : sameType a b = true) :
    ∃ g1 g2, a = some g1 ∧ b = some g2 ∧ g1.type = g2.type := by
  cases a with
  | none => cases h
  | some g1 =>
    cases b with
    | none => cases h
    | some g2 =>
      have h' : (g1.type == g2.type) = true := h
      exact ⟨g1, g2, rfl, rfl, beq_iff_eq.mp h'⟩

theorem lt_of_getD_some (l : List Cell) (i : Nat) {g : Gem}
    (h : l.getD i Option.none = some g) : i < l.length := by
  by_contra hn
  rw [List.getD_eq_default l Option.none (by omega)] at h
  cases h

theorem tripleAt_bound (cells : List Cell) (i : Nat) (h : tripleAt cells i) :
    i + 2 < cells.length := by
  obtain ⟨-, h2⟩ := h
  obtain ⟨g1, g2, -, hb, -⟩ := sameType_some _ _ h2
  exact lt_of_getD_some cells (i + 2) hb

theorem flushRun_ne_nil (run : List Cell) :
    flushRun run ≠ [] ↔ 3 ≤ run.length := by
  unfold flushRun
  by_cases h : 3 ≤ run.length <;> simp [h]

theorem chainF_singleton (c : Cell) : chainF [c] := by
  intro idx h
  simp at h

theorem chainF_append (run : List Cell) (c : Cell) (hne : run ≠ [])
    (hch : chainF run)
    (hst : sameType c (run.getD (run.length - 1) Option.none) = true) :
    chainF (run ++ [c]) := by
  intro idx h
  rw [List.length_append, List.length_singleton] at h
  by_cases hlt : idx + 1 < run.length
  · rw [List.getD_append _ _ _ _ hlt, List.getD_append _ _ _ _ (by omega)]
    exact hch idx hlt
  · have hidx : idx + 1 = run.length := by omega
    have hrun0 : 0 < run.length := List.length_pos.mpr hne
    rw [show idx + 1 = run.length + 0 by omega, List.getD_append_right _ _ _ _
      (by omega), List.getD_append _ _ _ _ (by omega)]
    simpa [show idx = run.length - 1 by omega] using hst

theorem chainF_triple (run : List Cell) (hch : chainF run)
    (h3 : 3 ≤ run.length) : tripleAt run 0 := by
  constructor
  · rw [sameType_comm]
    exact hch 0 (by omega)
  · rw [sameType_comm]
    exact hch 1 (by omega)

theorem tripleAt_append_left (l l' : List Cell) (i : Nat)
    (h : tripleAt l i) : tripleAt (l ++ l') i := by
  have hb := tripleAt_bound l i h
  obtain ⟨h1, h2⟩ := h
  exact ⟨by rwa [List.getD_append _ _ _ _ (by omega),
      List.getD_append _ _ _ _ (by omega)],
    by rwa [List.getD_append _ _ _ _ (by omega),
      List.getD_append _ _ _ _ (by omega)]⟩

theorem tripleAt_append_left_of_lt (l l' : List Cell) (i : Nat)
    (hb : i + 2 < l.length) (h : tripleAt (l ++ l') i) : tripleAt l i := by
  obtain ⟨h1, h2⟩ := h
  exact ⟨by rwa [List.getD_append _ _ _ _ (by omega),
      List.getD_append _ _ _ _ (by omega)] at h1,
    by rwa [List.getD_append _ _ _ _ (by omega),
      List.getD_append _ _ _ _ (by omega)] at h2⟩

theorem tripleAt_append_right (l l' : List Cell) (i : Nat)
    (h : tripleAt l' i) : tripleAt (l ++ l') (l.length + i) := by
  obtain ⟨h1, h2⟩ := h
  refine ⟨?_, ?_⟩
  · rwa [List.getD_append_right _ _ _ _ (by omega),
      show l.length + i + 1 = l.length + (i + 1) by omega,
      List.getD_append_right _ _ _ _ (by omega),
      Nat.add_sub_cancel_left, Nat.add_sub_cancel_left]
  · rwa [show l.length + i + 1 = l.length + (i + 1) by omega,
      show l.length + i + 2 = l.length + (i + 2) by omega,
      List.getD_append_right _ _ _ _ (by omega),
      List.getD_append_right _ _ _ _ (by omega),
      Nat.add_sub_cancel_left, Nat.add_sub_cancel_left]

theorem tripleAt_append_right_of_le (l l' : List Cell) (i : Nat)
    (hle : l.length ≤ i) (h : tripleAt (l ++ l') i) :
    tripleAt l' (i - l.length) := by
  obtain ⟨h1, h2⟩ := h
  refine ⟨?_, ?_⟩
  · rwa [List.getD_append_right _ _ _ _ (by omega),
      List.getD_append_right _ _ _ _ (by omega),
      show i + 1 - l.length = i - l.length + 1 by omega] at h1
  · rwa [List.getD_append_right _ _ _ _ (by omega),
      List.getD_append_right _ _ _ _ (by omega),
      show i + 1 - l.length = i - l.length + 1 by omega,
      show i + 2 - l.length = i - l.length + 2 by omega] at h2

/-- The heart of the equivalence: the run-length scan, resumed with a
chained non-empty run, finds something exactly when the line (current
run followed by the unscanned cells) contains a triple. -/
theorem runsGo_ne_nil_iff :
    ∀ (rest run : List Cell), run ≠ [] → chainF run →
      (runsGo run rest ≠ [] ↔ ∃ i, tripleAt (run ++ rest) i)
  | [], run, hne, hch => by
    rw [runsGo, List.append_nil]
    constructor
    · intro h
      exact ⟨0, chainF_triple run hch ((flushRun_ne_nil run).mp h)⟩
    · intro ⟨i, hi⟩
      have := tripleAt_bound run i hi
      exact (flushRun_ne_nil run).mpr (by omega)
  | c :: rest, run, hne, hch => by
    rw [runsGo]
    by_cases hst : sameType c (run.getD (run.length - 1) Option.none) = true
    · rw [if_pos hst]
      rw [runsGo_ne_nil_iff rest (run ++ [c]) (by simp)
        (chainF_append run c hne hch hst)]
      rw [List.append_assoc]
      rfl
    · rw [if_neg hst]
      have hrun0 : 0 < run.length := List.length_pos.mpr hne
      constructor
      · intro h
        by_cases hf : flushRun run = []
        · rw [hf, List.nil_append] at h
          obtain ⟨i, hi⟩ := (runsGo_ne_nil_iff rest [c] (by simp)
            (chainF_singleton c)).mp h
          exact ⟨run.length + i, tripleAt_append_right run (c :: rest) i hi⟩
        · have h3 : 3 ≤ run.length := (flushRun_ne_nil run).mp hf
          exact ⟨0, tripleAt_append_left run (c :: rest) 0
            (chainF_triple run hch h3)⟩
      · intro hex
        obtain ⟨i, hi⟩ := hex
        intro heq
        obtain ⟨hfl, hrg⟩ := List.append_eq_nil.mp heq
        by_cases h1 : i + 2 < run.length
        · have ht := tripleAt_append_left_of_lt run (c :: rest) i h1 hi
          have := tripleAt_bound run i ht
          exact (flushRun_ne_nil run).mpr (by omega) hfl
        · by_cases h2 : run.length ≤ i
          · have ht := tripleAt_append_right_of_le run (c :: rest) i h2 hi
            exact (runsGo_ne_nil_iff rest [c] (by simp)
              (chainF_singleton c)).mpr ⟨i - run.length, ht⟩ hrg
          · -- the triple straddles the break point: contradiction with hst
            rcases show run.length = i + 1 ∨ run.length = i + 2 by omega with
              hl | hl
            · obtain ⟨hp1, -⟩ := hi
              rw [List.getD_append _ _ _ _ (by omega),
                List.getD_append_right _ _ _ _ (by omega), hl,
                Nat.sub_self] at hp1
              rw [sameType_comm] at hp1
              exact hst (by simpa [hl] using hp1)
            · obtain ⟨-, hp2⟩ := hi
              rw [List.getD_append _ _ _ _ (by omega),
                List.getD_append_right _ _ _ _ (by omega), hl,
                Nat.sub_self] at hp2
              rw [sameType_comm] at hp2
              exact hst (by simpa [hl] using hp2)

/-- A line's scan finds something exactly when the line has a triple. -/
theorem scanLine_ne_nil_iff (cells : List Cell) :
    scanLine cells ≠ [] ↔ ∃ i, tripleAt cells i := by
  cases cells with
  | nil =>
    constructor
    · intro h
      exact absurd rfl h
    · intro ⟨i, hi⟩
      obtain ⟨h1, -⟩ := hi
      cases h1
  | cons c rest =>
    rw [scanLine]
    exact runsGo_ne_nil_iff rest [c] (by simp) (chainF_singleton c)

theorem chain_filterMap_ne_nil (run : List Cell) (hch : chainF run)
    (h3 : 3 ≤ run.length) : run.filterMap id ≠ [] := by
  cases run with
  | nil => simp at h3
  | cons c0 t =>
    have h0 := hch 0 (by simp at h3 ⊢; omega)
    obtain ⟨g1, g2, -, hb, -⟩ := sameType_some _ _ h0
    have hc0 : c0 = some g2 := hb
    rw [hc0]
    simp

/-- Every run emitted by the scan is non-empty (it has ≥ 3 cells, all
holding gems). -/
theorem runsGo_runs_ne_nil :
    ∀ (rest run : List Cell), run ≠ [] → chainF run →
      ∀ x ∈ runsGo run rest, x ≠ []
  | [], run, hne, hch => by
    intro x hx
    rw [runsGo, flushRun] at hx
    by_cases h3 : 3 ≤ run.length
    · rw [if_pos h3, List.mem_singleton] at hx
      subst hx
      exact chain_filterMap_ne_nil run hch h3
    · rw [if_neg h3] at hx
      cases hx
  | c :: rest, run, hne, hch => by
    intro x hx
    rw [runsGo] at hx
    by_cases hst : sameType c (run.getD (run.length - 1) Option.none) = true
    · rw [if_pos hst] at hx
      exact runsGo_runs_ne_nil rest (run ++ [c]) (by simp)
        (chainF_append run c hne hch hst) x hx
    · rw [if_neg hst] at hx
      rcases List.mem_append.mp hx with hf | hr
      · rw [flushRun] at hf
        by_cases h3 : 3 ≤ run.length
        · rw [if_pos h3, List.mem_singleton] at hf
          subst hf
          exact chain_filterMap_ne_nil run hch h3
        · rw [if_neg h3] at hf
          cases hf
      · exact runsGo_runs_ne_nil rest [c] (by simp) (chainF_singleton c) x hr

theorem scanLine_runs_ne_nil (cells : List Cell) :
    ∀ x ∈ scanLine cells, x ≠ [] := by
  cases cells with
  | nil => intro x hx; cases hx
  | cons c rest =>
    rw [scanLine]
    exact runsGo_runs_ne_nil rest [c] (by simp) (chainF_singleton c)

/-- A fold that only ever appends (and never appends onto `[]` without
pushing) ends empty only if it started empty with nothing to push. -/
theorem foldl_push_eq_nil {α β : Type} (p : List α → β → Bool) (q : β → α)
    (hp0 : ∀ g, p [] g = false) :
    ∀ (gs : List β) (acc : List α),
      gs.foldl (fun acc g => if p acc g then acc else acc ++ [q g]) acc = [] →
      acc = [] ∧ gs = []
  | [], acc, h => ⟨h, rfl⟩
  | g :: gs, acc, h => by
    rw [List.foldl_cons] at h
    obtain ⟨h1, -⟩ := foldl_push_eq_nil p q hp0 gs _ h
    exfalso
    by_cases hp : p acc g = true
    · rw [if_pos hp] at h1
      subst h1
      rw [hp0 g] at hp
      cases hp
    · rw [if_neg hp] at h1
      obtain ⟨-, h2⟩ := List.append_eq_nil.mp h1
      cases h2

theorem addVertical_eq_nil (acc : List MatchRec) (run : List Gem)
    (h : addVertical acc run = []) : acc = [] ∧ run = [] := by
  have h' : run.foldl (fun acc g =>
      if acc.any fun m => m.gem == g then acc
      else acc ++ [⟨g, run.length, Direction.vertical⟩]) acc = [] := h
  exact foldl_push_eq_nil _ _ (fun g => rfl) run acc h'

theorem foldl_addVertical_eq_nil :
    ∀ (runs : List (List Gem)) (acc : List MatchRec),
      runs.foldl addVertical acc = [] ↔ acc = [] ∧ ∀ r ∈ runs, r = []
  | [], acc => by simp
  | r :: runs, acc => by
    rw [List.foldl_cons, foldl_addVertical_eq_nil runs _]
    constructor
    · intro ⟨h1, h2⟩
      obtain ⟨ha, hr⟩ := addVertical_eq_nil acc r h1
      refine ⟨ha, fun x hx => ?_⟩
      rcases List.mem_cons.mp hx with rfl | hmem
      · exact hr
      · exact h2 x hmem
    · intro ⟨ha, hall⟩
      have hr : r = [] := hall r (by simp)
      refine ⟨?_, fun x hx => hall x (List.mem_cons_of_mem _ hx)⟩
      rw [ha, hr]
      rfl

/-- `findMatches` is empty exactly when every row scan and every column
scan is empty. -/
theorem findMatches_eq_nil_iff (gm : GridManager) :
    findMatches gm = [] ↔
      (∀ r ∈ List.range gm.rows, scanLine (gm.grid.getD r []) = []) ∧
      (∀ c ∈ List.range gm.cols, scanLine (colCells gm c) = []) := by
  show List.foldl addVertical _ _ = [] ↔ _
  rw [foldl_addVertical_eq_nil]
  constructor
  · intro ⟨h1, h2⟩
    constructor
    · intro r hr
      have hrm : rowMatches (gm.grid.getD r []) = [] := by
        have := List.flatten_eq_nil_iff.mp h1
        exact this _ (List.mem_map_of_mem _ hr)
      rw [rowMatches, List.flatten_eq_nil_iff] at hrm
      by_contra hs
      obtain ⟨run, hrun⟩ := List.exists_mem_of_ne_nil _ hs
      have hrne := scanLine_runs_ne_nil _ run hrun
      have := hrm _ (List.mem_map_of_mem _ hrun)
      rw [List.map_eq_nil_iff] at this
      exact hrne this
    · intro c hc
      by_contra hs
      obtain ⟨run, hrun⟩ := List.exists_mem_of_ne_nil _ hs
      have hrne := scanLine_runs_ne_nil _ run hrun
      have hmem : run ∈ ((List.range gm.cols).map fun c =>
          scanLine (colCells gm c)).flatten := by
        rw [List.mem_flatten]
        exact ⟨scanLine (colCells gm c), List.mem_map_of_mem _ hc, hrun⟩
      exact hrne (h2 run hmem)
  · intro ⟨h1, h2⟩
    constructor
    · rw [List.flatten_eq_nil_iff]
      intro l hl
      rw [List.mem_map] at hl
      obtain ⟨r, hr, rfl⟩ := hl
      rw [rowMatches, List.flatten_eq_nil_iff]
      intro x hx
      rw [List.mem_map] at hx
      obtain ⟨run, hrun, rfl⟩ := hx
      rw [h1 r hr] at hrun
      cases hrun
    · intro run hrun
      rw [List.mem_flatten] at hrun
      obtain ⟨l, hl, hmem⟩ := hrun
      rw [List.mem_map] at hl
      obtain ⟨c, hc, rfl⟩ := hl
      rw [h2 c hc] at hmem
      cases hmem

theorem WF_row_length (gm : GridManager) (hwf : WF gm) (r : Nat)
    (hr : r < gm.rows) : (gm.grid.getD r []).length = gm.cols := by
  have hlen := hwf.1
  cases hg : gm.grid.get? r with
  | none =>
    exfalso
    have := List.get?_eq_none.mp hg
    omega
  | some row =>
    rw [List.getD_eq_getElem?_getD, ← List.get?_eq_getElem?, hg]
    exact hwf.2 row (List.get?_mem hg)

theorem colCells_length (gm : GridManager) (c : Nat) :
    (colCells gm c).length = gm.rows := by
  simp [colCells]

theorem colCells_getD (gm : GridManager) (c r : Nat) (hr : r < gm.rows) :
    (colCells gm c).getD r Option.none = cellAt gm.grid r c := by
  unfold colCells
  rw [List.getD_eq_getElem?_getD, ← List.get?_eq_getElem?, List.get?_map,
    List.get?_range hr]
  rfl

theorem row_lt_of_cell (gm : GridManager) (hwf : WF gm) {r i : Nat} {gem : Gem}
    (h : (gm.grid.getD r []).getD i Option.none = some gem) : r < gm.rows := by
  have hlen := hwf.1
  by_contra hn
  rw [List.getD_eq_default gm.grid [] (by omega)] at h
  cases h

/-- The boolean scan finds a match exactly when some row or some column
contains a triple. -/
theorem hasMatches_iff (gm : GridManager) (hwf : WF gm) :
    hasMatches gm = true ↔
      (∃ r ∈ List.range gm.rows, ∃ i, tripleAt (gm.grid.getD r []) i) ∨
      (∃ c ∈ List.range gm.cols, ∃ i, tripleAt (colCells gm c) i) := by
  unfold hasMatches
  rw [List.any_eq_true]
  constructor
  · intro ⟨row, hrow, hbody⟩
    rw [List.any_eq_true] at hbody
    obtain ⟨col, hcol, hbody⟩ := hbody
    cases hc : cellAt gm.grid row col with
    | none => simp only [hc, Bool.false_eq_true] at hbody
    | some gem =>
      simp only [hc] at hbody
      rcases Bool.or_eq_true_iff.mp hbody with hA | hB
      · obtain ⟨hlt, hmatch⟩ := Bool.and_eq_true_iff.mp hA
        have hlt' : col < gm.cols - 2 := of_decide_eq_true hlt
        cases hc1 : cellAt gm.grid row (col + 1) with
        | none => simp only [hc1, Bool.false_eq_true] at hmatch
        | some n1 =>
          cases hc2 : cellAt gm.grid row (col + 2) with
          | none => simp only [hc1, hc2, Bool.false_eq_true] at hmatch
          | some n2 =>
            simp only [hc1, hc2, Bool.and_eq_true, beq_iff_eq] at hmatch
            refine Or.inl ⟨row, hrow, col, ?_, ?_⟩
            · show sameType (cellAt gm.grid row col)
                (cellAt gm.grid row (col + 1)) = true
              rw [hc, hc1]
              show (gem.type == n1.type) = true
              exact beq_iff_eq.mpr hmatch.1
            · show sameType (cellAt gm.grid row (col + 1))
                (cellAt gm.grid row (col + 2)) = true
              rw [hc1, hc2]
              show (n1.type == n2.type) = true
              exact beq_iff_eq.mpr (hmatch.1 ▸ hmatch.2)
      · obtain ⟨hlt, hmatch⟩ := Bool.and_eq_true_iff.mp hB
        have hlt' : row < gm.rows - 2 := of_decide_eq_true hlt
        have hrlt : row < gm.rows := List.mem_range.mp hrow
        cases hc1 : cellAt gm.grid (row + 1) col with
        | none => simp only [hc1, Bool.false_eq_true] at hmatch
        | some n1 =>
          cases hc2 : cellAt gm.grid (row + 2) col with
          | none => simp only [hc1, hc2, Bool.false_eq_true] at hmatch
          | some n2 =>
            simp only [hc1, hc2, Bool.and_eq_true, beq_iff_eq] at hmatch
            refine Or.inr ⟨col, hcol, row, ?_, ?_⟩
            · show sameType ((colCells gm col).getD row Option.none)
                ((colCells gm col).getD (row + 1) Option.none) = true
              rw [colCells_getD gm col row hrlt,
                colCells_getD gm col (row + 1) (by omega), hc, hc1]
              show (gem.type == n1.type) = true
              exact beq_iff_eq.mpr hmatch.1
            · show sameType ((colCells gm col).getD (row + 1) Option.none)
                ((colCells gm col).getD (row + 2) Option.none) = true
              rw [colCells_getD gm col (row + 1) (by omega),
                colCells_getD gm col (row + 2) (by omega), hc1, hc2]
              show (n1.type == n2.type) = true
              exact beq_iff_eq.mpr (hmatch.1 ▸ hmatch.2)
  · intro h
    rcases h with ⟨r, hr, i, htrip⟩ | ⟨c, hcmem, i, htrip⟩
    · obtain ⟨hp1, hp2⟩ := htrip
      obtain ⟨gem, n1, hc0, hc1, ht1⟩ := sameType_some _ _ hp1
      obtain ⟨n1', n2, hc1', hc2, ht2⟩ := sameType_some _ _ hp2
      rw [hc1] at hc1'
      injection hc1' with hn1
      have ht2' : n1.type = n2.type := by rw [hn1]; exact ht2
      have hrlt : r < gm.rows := List.mem_range.mp hr
      have hlen : (gm.grid.getD r []).length = gm.cols :=
        WF_row_length gm hwf r hrlt
      have hi2 : i + 2 < gm.cols := by
        rw [← hlen]
        exact lt_of_getD_some _ _ hc2
      refine ⟨r, hr, List.any_eq_true.mpr
        ⟨i, List.mem_range.mpr (by omega), ?_⟩⟩
      have hcell : cellAt gm.grid r i = some gem := hc0
      have hcell1 : cellAt gm.grid r (i + 1) = some n1 := hc1
      have hcell2 : cellAt gm.grid r (i + 2) = some n2 := hc2
      simp only [hcell, hcell1, hcell2]
      apply Bool.or_eq_true_iff.mpr
      refine Or.inl (Bool.and_eq_true_iff.mpr ⟨decide_eq_true (by omega), ?_⟩)
      exact Bool.and_eq_true_iff.mpr
        ⟨beq_iff_eq.mpr ht1, beq_iff_eq.mpr (ht1.trans ht2')⟩
    · obtain ⟨hp1, hp2⟩ := htrip
      obtain ⟨gem, n1, hc0, hc1, ht1⟩ := sameType_some _ _ hp1
      obtain ⟨n1', n2, hc1', hc2, ht2⟩ := sameType_some _ _ hp2
      rw [hc1] at hc1'
      injection hc1' with hn1
      have ht2' : n1.type = n2.type := by rw [hn1]; exact ht2
      have hi2 : i + 2 < gm.rows := by
        have := lt_of_getD_some _ _ hc2
        rwa [colCells_length] at this
      rw [colCells_getD gm c i (by omega)] at hc0
      rw [colCells_getD gm c (i + 1) (by omega)] at hc1
      rw [colCells_getD gm c (i + 2) (by omega)] at hc2
      have hclt : c < gm.cols := by
        have := lt_of_getD_some _ _ hc0
        rwa [WF_row_length gm hwf i (by omega)] at this
      refine ⟨i, List.mem_range.mpr (by omega), List.any_eq_true.mpr
        ⟨c, List.mem_range.mpr hclt, ?_⟩⟩
      simp only [hc0, hc1, hc2]
      apply Bool.or_eq_true_iff.mpr
      refine Or.inr (Bool.and_eq_true_iff.mpr ⟨decide_eq_true (by omega), ?_⟩)
      exact Bool.and_eq_true_iff.mpr
        ⟨beq_iff_eq.mpr ht1, beq_iff_eq.mpr (ht1.trans ht2')⟩

/-- C10: on every well-formed grid configuration — empty cells
included — the cheap boolean scanner and the full run-length scanner
agree: `hasMatches()` returns `true` exactly when `findMatches()`
returns a non-empty list. -/
theorem c10_hasMatches_iff_findMatches (gm : GridManager) (hwf : WF gm) :
    hasMatches gm = true ↔ findMatches gm ≠ [] := by
  rw [hasMatches_iff gm hwf, Ne, findMatches_eq_nil_iff, not_and_or]
  constructor
  · rintro (⟨r, hr, i, ht⟩ | ⟨c, hc, i, ht⟩)
    · exact Or.inl fun hall => (scanLine_ne_nil_iff _).mpr ⟨i, ht⟩ (hall r hr)
    · exact Or.inr fun hall => (scanLine_ne_nil_iff _).mpr ⟨i, ht⟩ (hall c hc)
  · rintro (h | h)
    · push_neg at h
      obtain ⟨r, hr, hne⟩ := h
      obtain ⟨i, ht⟩ := (scanLine_ne_nil_iff _).mp hne
      exact Or.inl ⟨r, hr, i, ht⟩
    · push_neg at h
      obtain ⟨c, hc, hne⟩ := h
      obtain ⟨i, ht⟩ := (scanLine_ne_nil_iff _).mp hne
      exact Or.inr ⟨c, hc, i, ht⟩

/-- C10 witness: a 3×3 grid with an empty cell and a horizontal triple;
the boolean scan is true and, by the theorem, the full scan is
non-empty. -/
theorem c10_witness :
    hasMatches gmC10w = true ∧ findMatches gmC10w ≠ [] :=
  ⟨by decide, (c10_hasMatches_iff_findMatches gmC10w
    ⟨by decide, by decide⟩).mp (by decide)⟩

/-! ## Construction safety of the initial fill (C1) -/

theorem cellAt_append_lt (g g' : Grid) (r c : Nat) (h : r < g.length) :
    cellAt (g ++ g') r c = cellAt g r c := by
  rw [cellAt, cellAt, List.getD_append _ _ _ _ h]

theorem cellAt_append_self (g : Grid) (row : List Cell) (c : Nat) :
    cellAt (g ++ [row]) g.length c = row.getD c Option.none := by
  rw [cellAt, List.getD_append_right _ _ _ _ (Nat.le_refl _), Nat.sub_self]
  rfl

theorem cellType_eq (g : Grid) (r c : Nat) :
    cellType g r c = (cellAt g r c).map Gem.type := rfl

/-- The colour accepted by the `do..while` loop passed the check. -/
theorem pickGemType_safe (gm : GridManager) (rng : Nat → Nat)
    (row col : Nat) :
    ∀ (fuel idx : Nat) {t idx'},
      pickGemType gm rng row col fuel idx = some (t, idx') →
      wouldCreateMatch gm row col t = false
  | 0, _, _, _, h => by cases h
  | fuel + 1, idx, t, idx', h => by
    rw [pickGemType] at h
    by_cases hw : wouldCreateMatch gm row col (rng idx % numGemColors) = true
    · rw [if_pos hw] at h
      exact pickGemType_safe gm rng row col fuel (idx + 1) h
    · rw [if_neg hw] at h
      injection h with h1
      injection h1 with ht _
      rw [← ht]
      exact Bool.not_eq_true _ ▸ hw

/-- `wouldCreateMatch` only reads the four neighbour cells it checks. -/
theorem wouldCreateMatch_congr (g1 g2 : Grid) (x1 y1 x2 y2 r c t : Nat)
    (h1 : 2 ≤ c → cellType g1 r (c - 1) = cellType g2 r (c - 1))
    (h2 : 2 ≤ c → cellType g1 r (c - 2) = cellType g2 r (c - 2))
    (h3 : 2 ≤ r → cellType g1 (r - 1) c = cellType g2 (r - 1) c)
    (h4 : 2 ≤ r → cellType g1 (r - 2) c = cellType g2 (r - 2) c) :
    wouldCreateMatch ⟨x1, y1, g1⟩ r c t = wouldCreateMatch ⟨x2, y2, g2⟩ r c t := by
  unfold wouldCreateMatch
  dsimp only
  by_cases hc : 2 ≤ c
  · rw [h1 hc, h2 hc]
    by_cases hr : 2 ≤ r
    · rw [h3 hr, h4 hr]
    · rw [decide_eq_false hr]
      simp
  · rw [decide_eq_false hc]
    by_cases hr : 2 ≤ r
    · rw [h3 hr, h4 hr]
      simp
    · rw [decide_eq_false hr]
      simp

/-- Row-fill invariant: the result extends the partial row by `rem`
fresh cells, each holding a gem of a colour that passed
`wouldCreateMatch` against the final grid `prev ++ [res]`. -/
theorem initFillRow_spec (rows cols : Nat) (rng : Nat → Nat) (fuel : Nat)
    (prev : Grid) (row : Nat) (hprev : prev.length = row) :
    ∀ (rem : Nat) (cur : List Cell) (idx : Nat) (res : List Cell) (idx' : Nat),
      initFillRow rows cols rng fuel prev row rem cur idx = some (res, idx') →
      (∃ tail, res = cur ++ tail ∧ tail.length = rem) ∧
      (∀ k, cur.length ≤ k → k < res.length →
        ∃ t, res.getD k Option.none = some (createGem row k t) ∧
          wouldCreateMatch ⟨rows, cols, prev ++ [res]⟩ row k t = false)
  | 0, cur, idx, res, idx', h => by
    rw [initFillRow] at h
    injection h with h1
    injection h1 with hres _
    subst hres
    exact ⟨⟨[], by simp, rfl⟩, fun k hk1 hk2 => by omega⟩
  | rem + 1, cur, idx, res, idx', h => by
    rw [initFillRow] at h
    cases hp : pickGemType ⟨rows, cols, prev ++ [cur]⟩ rng row cur.length fuel idx with
    | none => rw [hp] at h; cases h
    | some p =>
      rw [hp] at h
      obtain ⟨⟨tail, htail, hlen⟩, hsafe⟩ := initFillRow_spec rows cols rng fuel
        prev row hprev rem (cur ++ [some (createGem row cur.length p.1)])
        p.2 res idx' h
      have hres : res = cur ++ (some (createGem row cur.length p.1) :: tail) := by
        rw [htail, List.append_assoc]
        rfl
      have hcurlt : cur.length < res.length := by
        rw [hres, List.length_append, List.length_cons]
        omega
      refine ⟨⟨some (createGem row cur.length p.1) :: tail, hres, by
        rw [List.length_cons, hlen]⟩, ?_⟩
      intro k hk1 hk2
      rcases Nat.eq_or_lt_of_le hk1 with heq | hlt
      · -- the newly placed cell
        refine ⟨p.1, ?_, ?_⟩
        · rw [← heq, hres, List.getD_append_right _ _ _ _ (Nat.le_refl _),
            Nat.sub_self]
          rfl
        · have hwc := pickGemType_safe ⟨rows, cols, prev ++ [cur]⟩ rng row
            cur.length fuel idx hp
          rw [← heq]
          rw [← wouldCreateMatch_congr (prev ++ [cur]) (prev ++ [res])
            rows cols rows cols row cur.length p.1 ?_ ?_ ?_ ?_]
          · exact hwc
          · intro h2c
            rw [cellType_eq, cellType_eq]
            have e1 : cellAt (prev ++ [cur]) row (cur.length - 1) =
                cur.getD (cur.length - 1) Option.none := by
              rw [← hprev]; exact cellAt_append_self prev cur _
            have e2 : cellAt (prev ++ [res]) row (cur.length - 1) =
                res.getD (cur.length - 1) Option.none := by
              rw [← hprev]; exact cellAt_append_self prev res _
            rw [e1, e2, hres, List.getD_append _ _ _ _ (by omega)]
          · intro h2c
            rw [cellType_eq, cellType_eq]
            have e1 : cellAt (prev ++ [cur]) row (cur.length - 2) =
                cur.getD (cur.length - 2) Option.none := by
              rw [← hprev]; exact cellAt_append_self prev cur _
            have e2 : cellAt (prev ++ [res]) row (cur.length - 2) =
                res.getD (cur.length - 2) Option.none := by
              rw [← hprev]; exact cellAt_append_self prev res _
            rw [e1, e2, hres, List.getD_append _ _ _ _ (by omega)]
          · intro h2r
            rw [cellType_eq, cellType_eq, cellAt_append_lt _ _ _ _ (by omega),
              cellAt_append_lt _ _ _ _ (by omega)]
          · intro h2r
            rw [cellType_eq, cellType_eq, cellAt_append_lt _ _ _ _ (by omega),
              cellAt_append_lt _ _ _ _ (by omega)]
      · -- cells placed later in the recursion
        exact hsafe k (by simp; omega) hk2

/-- Grid-fill invariant: the result appends `rem` rows of length
`cols`, and every appended cell passed `wouldCreateMatch` against the
final grid. -/
theorem initFillGrid_spec (rows cols : Nat) (rng : Nat → Nat) (fuel : Nat) :
    ∀ (rem : Nat) (g : Grid) (idx : Nat) (res : Grid) (idx' : Nat),
      initFillGrid rows cols rng fuel rem g idx = some (res, idx') →
      (∃ tails, res = g ++ tails ∧ tails.length = rem ∧
        ∀ row' ∈ tails, row'.length = cols) ∧
      (∀ r, g.length ≤ r → ∀ c gem, cellAt res r c = some gem →
        wouldCreateMatch ⟨rows, cols, res⟩ r c gem.type = false)
  | 0, g, idx, res, idx', h => by
    rw [initFillGrid] at h
    injection h with h1
    injection h1 with hres _
    subst hres
    refine ⟨⟨[], by simp, rfl, fun row' hr => absurd hr (by simp)⟩, ?_⟩
    intro r hr c gem hcell
    exfalso
    rw [cellAt, List.getD_eq_default g [] (by omega)] at hcell
    simp at hcell
  | rem + 1, g, idx, res, idx', h => by
    rw [initFillGrid] at h
    cases hp : initFillRow rows cols rng fuel g g.length cols [] idx with
    | none => rw [hp] at h; cases h
    | some p =>
      rw [hp] at h
      obtain ⟨⟨tail, htail, hlen⟩, hrowsafe⟩ := initFillRow_spec rows cols rng
        fuel g g.length rfl cols [] idx p.1 p.2 hp
      rw [List.nil_append] at htail
      have hrowlen : p.1.length = cols := by rw [htail]; exact hlen
      obtain ⟨⟨tails', htails', hlen', hcols'⟩, hsafe'⟩ :=
        initFillGrid_spec rows cols rng fuel rem (g ++ [p.1]) p.2 res idx' h
      have hglen : (g ++ [p.1]).length = g.length + 1 := by simp
      refine ⟨⟨[p.1] ++ tails', by rw [htails', List.append_assoc], by
        simp [hlen'], ?_⟩, ?_⟩
      · intro row' hr
        rcases List.mem_append.mp hr with h1 | h1
        · rw [List.mem_singleton.mp h1]
          exact hrowlen
        · exact hcols' row' h1
      · intro r hr c gem hcell
        rcases Nat.eq_or_lt_of_le hr with heq | hlt
        · -- the row filled in this step
          subst heq
          have hres' : res = (g ++ [p.1]) ++ tails' := htails'
          have hcell' : cellAt (g ++ [p.1]) g.length c = some gem := by
            rw [hres', cellAt_append_lt _ _ _ _ (by omega)] at hcell
            exact hcell
          have hrowcell : p.1.getD c Option.none = some gem := by
            rw [cellAt_append_self] at hcell'
            exact hcell'
          have hclt : c < p.1.length := lt_of_getD_some _ _ hrowcell
          obtain ⟨t, hget, hwc⟩ := hrowsafe c (by simp) (by omega)
          rw [hget] at hrowcell
          injection hrowcell with hgem
          have hgemtype : gem.type = t := by rw [← hgem]; rfl
          rw [hgemtype]
          rw [← wouldCreateMatch_congr (g ++ [p.1]) res rows cols rows cols
            g.length c t ?_ ?_ ?_ ?_]
          · exact hwc
          · intro h2c
            rw [cellType_eq, cellType_eq, hres',
              cellAt_append_lt (g ++ [p.1]) tails' _ _ (by omega)]
          · intro h2c
            rw [cellType_eq, cellType_eq, hres',
              cellAt_append_lt (g ++ [p.1]) tails' _ _ (by omega)]
          · intro h2r
            rw [cellType_eq, cellType_eq, hres',
              cellAt_append_lt (g ++ [p.1]) tails' _ _ (by omega)]
          · intro h2r
            rw [cellType_eq, cellType_eq, hres',
              cellAt_append_lt (g ++ [p.1]) tails' _ _ (by omega)]
        · exact hsafe' r (by omega) c gem hcell

/-- A grid whose every cell passed the construction check has no
triple anywhere, so `findMatches` is empty. -/
theorem findMatches_eq_nil_of_safe (gm : GridManager)
    (hsafe : safeGrid gm.grid) : findMatches gm = [] := by
  rw [findMatches_eq_nil_iff]
  constructor
  · intro r hr
    by_contra hs
    obtain ⟨i, hp1, hp2⟩ := (scanLine_ne_nil_iff _).mp hs
    obtain ⟨gem, n1, hc0, hc1, ht1⟩ := sameType_some _ _ hp1
    obtain ⟨n1', n2, hc1', hc2, ht2⟩ := sameType_some _ _ hp2
    rw [hc1] at hc1'
    injection hc1' with hn1
    have ht12 : n1.type = n2.type := by rw [hn1]; exact ht2
    have hcell1 : cellAt gm.grid r (i + 1) = some n1 := hc1
    have hcell2 : cellAt gm.grid r (i + 2) = some n2 := hc2
    have hfalse := hsafe r (i + 2) n2 hcell2
    have htrue : wouldCreateMatch ⟨0, 0, gm.grid⟩ r (i + 2) n2.type = true := by
      unfold wouldCreateMatch
      dsimp only
      apply Bool.or_eq_true_iff.mpr
      refine Or.inl (Bool.and_eq_true_iff.mpr ⟨Bool.and_eq_true_iff.mpr
        ⟨decide_eq_true (by omega), ?_⟩, ?_⟩)
      · rw [show i + 2 - 1 = i + 1 by omega, cellType_eq, hcell1]
        show (some n1.type == some n2.type) = true
        exact beq_iff_eq.mpr (by rw [ht12])
      · rw [show i + 2 - 2 = i by omega, cellType_eq]
        rw [show cellAt gm.grid r i = some gem from hc0]
        show (some gem.type == some n2.type) = true
        exact beq_iff_eq.mpr (by rw [ht1, ht12])
    rw [hfalse] at htrue
    cases htrue
  · intro c hc
    by_contra hs
    obtain ⟨i, hp1, hp2⟩ := (scanLine_ne_nil_iff _).mp hs
    obtain ⟨gem, n1, hc0, hc1, ht1⟩ := sameType_some _ _ hp1
    obtain ⟨n1', n2, hc1', hc2, ht2⟩ := sameType_some _ _ hp2
    rw [hc1] at hc1'
    injection hc1' with hn1
    have ht12 : n1.type = n2.type := by rw [hn1]; exact ht2
    have hi2 : i + 2 < gm.rows := by
      have := lt_of_getD_some _ _ hc2
      rwa [colCells_length] at this
    rw [colCells_getD gm c i (by omega)] at hc0
    rw [colCells_getD gm c (i + 1) (by omega)] at hc1
    rw [colCells_getD gm c (i + 2) (by omega)] at hc2
    have hfalse := hsafe (i + 2) c n2 hc2
    have htrue : wouldCreateMatch ⟨0, 0, gm.grid⟩ (i + 2) c n2.type = true := by
      unfold wouldCreateMatch
      dsimp only
      apply Bool.or_eq_true_iff.mpr
      refine Or.inr (Bool.and_eq_true_iff.mpr ⟨Bool.and_eq_true_iff.mpr
        ⟨decide_eq_true (by omega), ?_⟩, ?_⟩)
      · rw [show i + 2 - 1 = i + 1 by omega, cellType_eq, hc1]
        show (some n1.type == some n2.type) = true
        exact beq_iff_eq.mpr (by rw [ht12])
      · rw [show i + 2 - 2 = i by omega, cellType_eq, hc0]
        show (some gem.type == some n2.type) = true
        exact beq_iff_eq.mpr (by rw [ht1, ht12])
    rw [hfalse] at htrue
    cases htrue

/-- C1: for every rng stream (and fuel that lets every `do..while`
re-roll terminate), `initialize` on the 10×10 grid produces a grid on
which `findMatches` returns the empty list: each placement rejected any
colour completing a run of 3 with its already placed left/up
neighbours, and those checks rule out every horizontal and vertical
triple. -/
theorem c1_initGrid_no_matches (rng : Nat → Nat) (fuel : Nat)
    (gm' : GridManager) (h : initGrid gm10 rng fuel = some gm') :
    findMatches gm' = [] := by
  unfold initGrid at h
  cases hfill : initFillGrid gm10.rows gm10.cols rng fuel gm10.rows [] 0 with
  | none => rw [hfill] at h; cases h
  | some p =>
    rw [hfill] at h
    injection h with hgm
    obtain ⟨⟨tails, htails, hlen, hcols⟩, hsafe⟩ :=
      initFillGrid_spec gm10.rows gm10.cols rng fuel gm10.rows [] 0 p.1 p.2
        hfill
    rw [List.nil_append] at htails
    subst hgm
    refine findMatches_eq_nil_of_safe _ ?_
    intro r c gem hcell
    exact hsafe r (by simp) c gem hcell

/-- C1 witness: the identity stream with re-roll fuel 4 fills the grid
(at most two colours are ever banned, and consecutive stream values
differ mod 4), and the result has no matches. -/
theorem c1_witness :
    findMatches ((initGrid gm10 (fun i => i) 4).getD gm10) = [] :=
  c1_initGrid_no_matches (fun i => i) 4 _ (by decide)

end ThreeInRow
